import Mathlib

/-!
Verification of the Cinespace `.csp` LUT codec
(`colour/io/luts/cinespace_csp.py`) against its specification.

The embedding models the file as the list of its physical lines
(the result of `readlines`, one string per line, newline terminators
already removed: a Python line `"3D\n\n"` written by the writer appears
here as the two lines `"3D"` and `""`).  Floating point values parsed
from the file are modelled as `Option ℚ`: `some q` is an ordinary
(exactly represented) number and `none` is the IEEE NaN sentinel used
by the code for ragged-table padding; arithmetic on `none` is
absorbing and comparison with `none` is always false, matching NaN
semantics in the operations the code actually performs.
-/

/-- A parsed floating point value: `none` models the NaN sentinel. -/
abbrev Val := Option ℚ

/-- `np.array_equal` element comparison: NaN is never equal to anything. -/
def valEq : Val → Val → Bool
  | some a, some b => a == b
  | _, _ => false

/-- Exact rational product, written through `mkRat` so that it reduces
in the kernel (`Rat.mul` is `@[irreducible]`); `ratMul_eq` below proves
it is the ordinary product. -/
def ratMul (a b : ℚ) : ℚ := mkRat (a.num * b.num) (a.den * b.den)

/-- Exact rational sum (kernel-reducible form). -/
def ratAdd (a b : ℚ) : ℚ := mkRat (a.num * (b.den : ℤ) + b.num * (a.den : ℤ)) (a.den * b.den)

/-- Exact rational difference (kernel-reducible form). -/
def ratSub (a b : ℚ) : ℚ := mkRat (a.num * (b.den : ℤ) - b.num * (a.den : ℤ)) (a.den * b.den)

/-- Exact division of a rational by a natural number (kernel-reducible
form); the only division the code performs is by `size - 1`. -/
def ratDivN (a : ℚ) (n : ℕ) : ℚ := mkRat a.num (a.den * n)

/-- NaN-absorbing multiplication (`NaN * x = NaN`). -/
def optMul : Val → Val → Val
  | some a, some b => some (ratMul a b)
  | _, _ => none

/-- NaN-absorbing addition. -/
def optAdd : Val → Val → Val
  | some a, some b => some (ratAdd a b)
  | _, _ => none

/-- NaN-absorbing subtraction. -/
def optSub : Val → Val → Val
  | some a, some b => some (ratSub a b)
  | _, _ => none

/-- NaN-absorbing division by a natural count (division by an exact
zero is unreachable in the code paths modelled here, see `writeEmit`). -/
def optDivN : Val → ℕ → Val
  | some a, n => some (ratDivN a n)
  | none, _ => none

/-- Python `str.strip` / `str.split` whitespace. -/
def isWS (c : Char) : Bool :=
  c == ' ' || c == '\t' || c == '\n' || c == '\r' || c == '\x0b' || c == '\x0c'

/-- Strip leading and trailing whitespace from a character list. -/
def trimChars (cs : List Char) : List Char :=
  ((cs.dropWhile isWS).reverse.dropWhile isWS).reverse

/-- Python `str.strip`. -/
def stripStr (s : String) : String := String.mk (trimChars s.data)

/-- Split on whitespace runs (Python `str.split()` with no argument),
accumulator-based: `acc` holds the current word reversed. -/
def wordsAux : List Char → List Char → List (List Char)
  | [], acc => if acc = [] then [] else [acc.reverse]
  | c :: rest, acc =>
    if isWS c then
      (if acc = [] then wordsAux rest [] else acc.reverse :: wordsAux rest [])
    else wordsAux rest (c :: acc)

/-- Python `s.split()`. -/
def splitWs (s : String) : List (List Char) := wordsAux s.data []

/-- Decimal digit to character. -/
def digitChar : ℕ → Char
  | 0 => '0' | 1 => '1' | 2 => '2' | 3 => '3' | 4 => '4'
  | 5 => '5' | 6 => '6' | 7 => '7' | 8 => '8' | 9 => '9'
  | _ => 'X'

/-- Character to decimal digit. -/
def digitVal (c : Char) : Option ℕ :=
  if c == '0' then some 0 else if c == '1' then some 1
  else if c == '2' then some 2 else if c == '3' then some 3
  else if c == '4' then some 4 else if c == '5' then some 5
  else if c == '6' then some 6 else if c == '7' then some 7
  else if c == '8' then some 8 else if c == '9' then some 9
  else none

/-- Big-endian decimal accumulation from a start value; `none` when a
non-digit occurs. -/
def digitsValFrom : ℕ → List Char → Option ℕ
  | n, [] => some n
  | n, c :: rest =>
    match digitVal c with
    | some d => digitsValFrom (n * 10 + d) rest
    | none => none

/-- Value of a big-endian digit string; `none` when a non-digit occurs.
The empty string yields `some 0`, callers guard non-emptiness. -/
def digitsVal (cs : List Char) : Option ℕ := digitsValFrom 0 cs

/-- Little-endian decimal digits, fuel-based so that it reduces in the
kernel; `fuel ≥ n` always suffices. -/
def natToDigitsRevGo : ℕ → ℕ → List ℕ
  | 0, n => [n]
  | fuel + 1, n => if n < 10 then [n] else (n % 10) :: natToDigitsRevGo fuel (n / 10)

/-- Little-endian decimal digits of a natural number. -/
def natToDigitsRev (n : ℕ) : List ℕ := natToDigitsRevGo n n

/-- Decimal rendering of a natural number (Python `str`/format of an int). -/
def natRepr (n : ℕ) : String :=
  String.mk ((natToDigitsRev n).reverse.map digitChar)

/-- Python `int(...)` on an (already stripped) token: optional sign and a
non-empty digit string. -/
def parseIntChars (cs : List Char) : Option ℤ :=
  match cs with
  | '-' :: rest => if rest = [] then none else (digitsVal rest).map (fun n => -(n : ℤ))
  | '+' :: rest => if rest = [] then none else (digitsVal rest).map (fun n => (n : ℤ))
  | _ => if cs = [] then none else (digitsVal cs).map (fun n => (n : ℤ))

/-- Python `int(s)` (which strips surrounding whitespace itself). -/
def parseIntTok (s : String) : Option ℤ := parseIntChars (trimChars s.data)

/-- Split a character list at every `'.'`. -/
def splitDotAux : List Char → List Char → List (List Char)
  | [], acc => [acc.reverse]
  | c :: rest, acc =>
    if c = '.' then acc.reverse :: splitDotAux rest []
    else splitDotAux rest (c :: acc)

/-- Unsigned decimal literal `digits`, `digits.digits`, `digits.` or
`.digits` as an exact rational (`x.y` with `k` fractional digits is
`(x * 10^k + y) / 10^k`, built through `mkRat` so that it reduces in
the kernel). -/
def parseUFloat (cs : List Char) : Option ℚ :=
  match splitDotAux cs [] with
  | [a] => if a = [] then none else (digitsVal a).map (fun n => (n : ℚ))
  | [a, b] =>
    if a = [] ∧ b = [] then none
    else
      match digitsVal a, digitsVal b with
      | some x, some y => some (mkRat (x * 10 ^ b.length + y) (10 ^ b.length))
      | _, _ => none
  | _ => none

/-- Float conversion of one token (`numpy` float cast): an optionally
signed decimal literal, or the NaN literal. -/
def parseFloatChars (cs : List Char) : Option Val :=
  match cs with
  | '-' :: rest =>
    if rest = ['n', 'a', 'n'] then some none
    else (parseUFloat rest).map (fun q => some (-q))
  | '+' :: rest => (parseUFloat rest).map (fun q => some q)
  | _ =>
    if cs = ['n', 'a', 'n'] then some none
    else (parseUFloat cs).map (fun q => some q)

/-- All-or-nothing elementwise parse of a token list. -/
def parseRow {α : Type} (f : List Char → Option α) : List (List Char) → Option (List α)
  | [] => some []
  | t :: ts =>
    match f t, parseRow f ts with
    | some v, some vs => some (v :: vs)
    | _, _ => none

/-- `as_float_array(line.split())`: every whitespace-separated token of
the line converted to a float. -/
def parseFloatRow (s : String) : Option (List Val) :=
  parseRow parseFloatChars (splitWs s)

/-- `as_int_array(line.split())`. -/
def parseIntRow (s : String) : Option (List ℤ) :=
  parseRow parseIntChars (splitWs s)

/-! ### Matrix helpers mirroring the numpy operations used by the code -/

/-- Split a flat list into rows of width `w` (C-order reshape),
fuel-based so that it reduces in the kernel; `fuel ≥ l.length`
always suffices. -/
def chunkRowsGo (w : ℕ) : ℕ → List Val → List (List Val)
  | 0, _ => []
  | fuel + 1, l =>
    if l = [] ∨ w = 0 then []
    else (l.take w) :: chunkRowsGo w fuel (l.drop w)

/-- Split a flat list into rows of width `w` (C-order reshape). -/
def chunkRows (w : ℕ) (l : List Val) : List (List Val) :=
  chunkRowsGo w l.length l

/-- `np.reshape(m, (3, 4))` of a 6x2 block: C-order flatten then rows of 4. -/
def np_reshape_3_4 (m : List (List Val)) : List (List Val) :=
  chunkRows 4 m.flatten

/-- Width of a rectangular matrix. -/
def matWidth (m : List (List Val)) : ℕ := (m.headD []).length

/-- `np.transpose` of a rectangular matrix. -/
def np_transpose (m : List (List Val)) : List (List Val) :=
  (List.range (matWidth m)).map (fun j => m.map (fun row => row.getD j none))

/-- One row of `np.array_equal`: equal lengths and element-wise `valEq`. -/
def rowEqB (r s : List Val) : Bool :=
  r.length == s.length && (List.zip r s).all (fun p => valEq p.1 p.2)

/-- `np.array_equal` (without `equal_nan`): NaN never compares equal. -/
def array_equal (a b : List (List Val)) : Bool :=
  a.length == b.length && (List.zip a b).all (fun p => rowEqB p.1 p.2)

/-- The `unity_range` constant `[[0, 0, 0], [1, 1, 1]]` of the reader. -/
def unity_range : List (List Val) :=
  [[some 0, some 0, some 0], [some 1, some 1, some 1]]

/-- `tstack((a, b, c))` for three equal-length 1D arrays: an N x 3 array. -/
def tstack3 (a b c : List Val) : List (List Val) :=
  (List.range a.length).map (fun j => [a.getD j none, b.getD j none, c.getD j none])

/-! ### The LUT data model

The LUT classes live in `colour.io.luts` which is outside `src/`; they
are modelled from the spec (section 3 and 6): plain value records
exposing `table`, `domain`, `name`, `comments`, a `size` (first table
axis length) and the `is_domain_explicit` predicate. -/

/-- Modelled from the spec: `LUT1D`, a single-channel 1D table. -/
structure LUT1D where
  table : List Val
  name : String
  domain : List Val
  comments : List String
deriving DecidableEq, Repr

/-- Modelled from the spec: `LUT3x1D`, three per-channel 1D tables of a
common length stored as an N x 3 array, with a 2 x 3 implicit domain or
an N x 3 explicit domain. -/
structure LUT3x1D where
  table : List (List Val)
  name : String
  domain : List (List Val)
  comments : List String
deriving DecidableEq, Repr

/-- A dense Nr x Ng x Nb x 3 table as nested lists. -/
abbrev Cube := List (List (List (List Val)))

/-- Modelled from the spec: `LUT3D`, a dense cube with a 2 x 3 domain. -/
structure LUT3D where
  table : Cube
  name : String
  domain : List (List Val)
  comments : List String
deriving DecidableEq, Repr

/-- An element of a `LUTSequence`. -/
inductive LUTElem where
  | e1D (l : LUT1D)
  | e3x1D (l : LUT3x1D)
  | e3D (l : LUT3D)
deriving DecidableEq, Repr

/-- A value accepted or produced by the codec: a single LUT or a
`LUTSequence` of elements. -/
inductive LUTValue where
  | single (e : LUTElem)
  | sequence (es : List LUTElem)
deriving DecidableEq, Repr

/-- Modelled from the spec: `size` of a LUT is its first table axis. -/
def LUT1D.size (l : LUT1D) : ℕ := l.table.length

/-- Modelled from the spec: `size` of a `LUT3x1D` is the shared table
length N. -/
def LUT3x1D.size (l : LUT3x1D) : ℕ := l.table.length

/-- Modelled from the spec: `size` of a `LUT3D` is its first axis. -/
def LUT3D.size (l : LUT3D) : ℕ := l.table.length

/-- Modelled from the spec: a `LUT3x1D` domain is explicit when it is
not a single `[min, max]` pair per channel (more than two rows). -/
def LUT3x1D.is_domain_explicit (l : LUT3x1D) : Bool := l.domain.length ≠ 2

/-- Modelled from the spec: `LUT1D.convert(LUT3x1D)`, the promotion of a
bare 1D table to a 3-channel table by replication. -/
def LUT1D.convertTo3x1D (l : LUT1D) : LUT3x1D :=
  { table := l.table.map (fun v => [v, v, v])
    name := l.name
    domain := l.domain.map (fun v => [v, v, v])
    comments := l.comments }

/-- Modelled from the spec: the identity placeholder shaper
(`LUT3x1D()` default) used when only the cube half is real.  The writer
only ever reads its (empty) `comments`, so its table content is
unobservable; a small linear identity is used. -/
def LUT3x1D.placeholder : LUT3x1D :=
  { table := [[some 0, some 0, some 0], [some 1, some 1, some 1]]
    name := "Unity"
    domain := [[some 0, some 0, some 0], [some 1, some 1, some 1]]
    comments := [] }

/-- Modelled from the spec: the identity placeholder cube (`LUT3D()`
default) used when only the shaper half is real; only its (empty)
`comments` are observable through the writer. -/
def LUT3D.placeholder : LUT3D :=
  { table := [[[[some 0, some 0, some 0], [some 0, some 0, some 1]],
               [[some 0, some 1, some 0], [some 0, some 1, some 1]]],
              [[[some 1, some 0, some 0], [some 1, some 0, some 1]],
               [[some 1, some 1, some 0], [some 1, some 1, some 1]]]]
    name := "Unity"
    domain := [[some 0, some 0, some 0], [some 1, some 1, some 1]]
    comments := [] }

/-! ### The reader -/

/-- Errors a read can surface.  `formatError` stands for the
assertion failures raised through `attest` (modelled from the spec,
section 7: `colour.utilities.attest` is outside `src/`); `indexError`
and `valueError` are the uncaught Python `IndexError` / `ValueError`
exceptions from out-of-range line access and failed numeric
conversions. -/
inductive ReadError where
  | formatError (msg : String)
  | indexError
  | valueError
deriving DecidableEq, Repr

/-- The tokenizer: `[line.strip() for line in lines if line.strip()]`. -/
def cspLines (raw : List String) : List String :=
  raw.filterMap (fun l => if stripStr l = "" then none else some (stripStr l))

/-- The metadata scan loop of `read_LUT_Cinespace`: walks the lines
after the kind line, collecting lines between `BEGIN METADATA` and the
first `END METADATA`; returns the collected lines and the loop index of
the terminator (`none` when the loop runs to exhaustion without
breaking, in which case the reader leaves `seek` at 2). -/
def metaScanAux : List String → ℕ → Bool → List String → (List String × Option ℕ)
  | [], _, _, acc => (acc, none)
  | l :: rest, i, isMeta, acc =>
    if l = "BEGIN METADATA" then metaScanAux rest (i + 1) true acc
    else if l = "END METADATA" then (acc, some i)
    else metaScanAux rest (i + 1) isMeta (if isMeta then acc ++ [l] else acc)

/-- `_parse_metadata_section`: first captured line is the title, the
rest are comments; empty capture yields an empty title. -/
def parse_metadata_section (metadata : List String) : String × List String :=
  match metadata with
  | [] => ("", [])
  | t :: rest => (t, rest)

/-- Fallible line access (`lines[i]`, Python `IndexError`). -/
def getLineStr (ls : List String) (i : ℕ) : Except ReadError String :=
  match ls.get? i with
  | some s => .ok s
  | none => .error .indexError

/-- `int(lines[i])`. -/
def getIntAt (ls : List String) (i : ℕ) : Except ReadError ℤ := do
  let s ← getLineStr ls i
  match parseIntTok s with
  | some n => .ok n
  | none => .error .valueError

/-- `as_float_array(lines[i].split())`. -/
def getFloatRowAt (ls : List String) (i : ℕ) : Except ReadError (List Val) := do
  let s ← getLineStr ls i
  match parseFloatRow s with
  | some r => .ok r
  | none => .error .valueError

/-- `np.pad(row, (0, M - len(row)), constant_values=nan)`: identity at
the exact width, right-pad with NaN when shorter, `ValueError` (negative
pad width) when longer. -/
def padToWidth (M : ℤ) (row : List Val) : Except ReadError (List Val) :=
  if (row.length : ℤ) = M then .ok row
  else if (row.length : ℤ) < M then
    .ok (row ++ List.replicate (M - (row.length : ℤ)).toNat none)
  else .error .valueError

/-- `_parse_domain_section`: nine lines, `pre_LUT_size` is the maximum
of the three declared counts (lines 0, 3, 6), the six numeric rows
(lines 1, 2, 4, 5, 7, 8) are right-padded with NaN to that width. -/
def parse_domain_section (ls : List String) : Except ReadError (List (List Val)) := do
  let c0 ← getIntAt ls 0
  let c3 ← getIntAt ls 3
  let c6 ← getIntAt ls 6
  let M := max c0 (max c3 c6)
  let r1 ← getFloatRowAt ls 1
  let r2 ← getFloatRowAt ls 2
  let r4 ← getFloatRowAt ls 4
  let r5 ← getFloatRowAt ls 5
  let r7 ← getFloatRowAt ls 7
  let r8 ← getFloatRowAt ls 8
  let p1 ← padToWidth M r1
  let p2 ← padToWidth M r2
  let p4 ← padToWidth M r4
  let p5 ← padToWidth M r5
  let p7 ← padToWidth M r7
  let p8 ← padToWidth M r8
  .ok [p1, p2, p4, p5, p7, p8]

/-- Parse every remaining line of the table section as a numeric row
(`ValueError` at the first bad line). -/
def parse_table_rows : List String → Except ReadError (List (List Val))
  | [] => .ok []
  | l :: ls =>
    match parseFloatRow l, parse_table_rows ls with
    | some r, .ok rs => .ok (r :: rs)
    | none, _ => .error .valueError
    | some _, .error e => .error e

/-- `_parse_table_section`: the first remaining line holds the per-axis
sizes, the remaining lines are numeric rows; `as_float_array` of a
ragged row list raises `ValueError`. -/
def parse_table_section (ls : List String) :
    Except ReadError (List ℤ × List (List Val)) := do
  let first ← getLineStr ls 0
  let size ←
    match parseIntRow first with
    | some s => Except.ok s
    | none => Except.error ReadError.valueError
  let rows ← parse_table_rows (ls.drop 1)
  if rows.all (fun r => r.length == (rows.headD []).length) then .ok (size, rows)
  else .error .valueError

/-- `pre_LUT.shape == (6, 2)`. -/
def shape62 (P : List (List Val)) : Bool :=
  P.length == 6 && P.all (fun r => r.length == 2)

/-- `np.array_equal(np.transpose(np.reshape(pre_LUT, (3, 4)))[2:4], unity_range)`. -/
def unitySlice (P : List (List Val)) : Bool :=
  array_equal (((np_transpose (np_reshape_3_4 P)).drop 2).take 2) unity_range

/-- Total element count of a parsed table (`table.size` in numpy). -/
def totalElems (m : List (List Val)) : ℕ := (m.map List.length).sum

/-- `table.reshape([r, g, b, 3], order="F")` of an (r*g*b) x 3 row list:
the cube entry at `(i, j, k)` is the flat row `i + r*j + r*g*k`. -/
def np_reshapeF_cube (r g b : ℕ) (rows : List (List Val)) : Cube :=
  (List.range r).map (fun i =>
    (List.range g).map (fun j =>
      (List.range b).map (fun k => rows.getD (i + r * j + r * g * k) [])))

/-- The four-way shape classification at the end of `read_LUT_Cinespace`
(source lines 183-245).  The `ValueError` branches model the
`np.reshape` element-count check, the `indexError` branches model
`size[0..2]` access on a too-short size line. -/
def classify (is3D : Bool) (title : String) (comments : List String)
    (pre_LUT : List (List Val)) (size : List ℤ) (table : List (List Val)) :
    Except ReadError LUTValue :=
  if is3D && shape62 pre_LUT && unitySlice pre_LUT then
    match size.get? 0, size.get? 1, size.get? 2 with
    | some r, some g, some b =>
      if r.toNat * g.toNat * b.toNat * 3 == totalElems table then
        .ok (.single (.e3D
          { table := np_reshapeF_cube r.toNat g.toNat b.toNat table
            name := title
            domain := (np_transpose (np_reshape_3_4 pre_LUT)).take 2
            comments := comments }))
      else .error .valueError
    | _, _, _ => .error .indexError
  else if !is3D && shape62 pre_LUT && unitySlice pre_LUT then
    .ok (.single (.e3x1D
      { table := table
        name := title
        domain := (np_transpose (np_reshape_3_4 pre_LUT)).take 2
        comments := comments }))
  else if is3D then
    match size.get? 0, size.get? 1, size.get? 2 with
    | some r, some g, some b =>
      if r.toNat * g.toNat * b.toNat * 3 == totalElems table then
        .ok (.sequence
          [.e3x1D
            { table := tstack3 (pre_LUT.getD 1 []) (pre_LUT.getD 3 []) (pre_LUT.getD 5 [])
              name := title ++ " - Shaper"
              domain := tstack3 (pre_LUT.getD 0 []) (pre_LUT.getD 2 []) (pre_LUT.getD 4 [])
              comments := [] },
           .e3D
            { table := np_reshapeF_cube r.toNat g.toNat b.toNat table
              name := title ++ " - Cube"
              domain := unity_range
              comments := comments }])
      else .error .valueError
    | _, _, _ => .error .indexError
  else
    let pre_domain := tstack3 (pre_LUT.getD 0 []) (pre_LUT.getD 2 []) (pre_LUT.getD 4 [])
    let pre_table := tstack3 (pre_LUT.getD 1 []) (pre_LUT.getD 3 []) (pre_LUT.getD 5 [])
    if table.length == 2 && table.all (fun r => r.length == 3) then
      let tmin := table.getD 0 []
      let tmax := table.getD 1 []
      .ok (.single (.e3x1D
        { table := pre_table.map (fun row => (List.range 3).map (fun i =>
            optAdd (optMul (row.getD i none) (optSub (tmax.getD i none) (tmin.getD i none)))
              (tmin.getD i none)))
          name := title
          domain := pre_domain
          comments := comments }))
    else
      .ok (.sequence
        [.e3x1D
          { table := pre_table
            name := title ++ " - PreLUT"
            domain := pre_domain
            comments := [] },
         .e3x1D
          { table := table
            name := title ++ " - Table"
            domain := unity_range
            comments := comments }])

/-- The position after which the domain section is read: `seek` starts
at 2, is advanced to the loop index of `END METADATA` when the scan
breaks, and is then unconditionally incremented. -/
def metaSeek (lines : List String) : ℕ :=
  2 + (metaScanAux (lines.drop 2) 0 false []).2.getD 0 + 1

/-- Title and comments extracted by the metadata scan. -/
def readMeta (lines : List String) : String × List String :=
  parse_metadata_section (metaScanAux (lines.drop 2) 0 false []).1

/-- The reader after the header and kind lines have been validated. -/
def readAfterHeader (lines : List String) (is3D : Bool) : Except ReadError LUTValue :=
  match parse_domain_section ((lines.drop (metaSeek lines)).take 9) with
  | .error e => .error e
  | .ok pre_LUT =>
    match parse_table_section (lines.drop (metaSeek lines + 9)) with
    | .error e => .error e
    | .ok (size, table) =>
      if size.prod = (table.length : ℤ) then
        classify is3D (readMeta lines).1 (readMeta lines).2 pre_LUT size table
      else .error (.formatError "LUT table size is invalid")

/-- `read_LUT_Cinespace`, taking the raw `readlines` result.  The
emptiness assertion inspects the raw line list, before trimming. -/
def read_LUT_Cinespace (raw : List String) : Except ReadError LUTValue :=
  if raw.length = 0 then .error (.formatError "LUT is empty")
  else
    let lines := cspLines raw
    match lines.get? 0 with
    | none => .error .indexError
    | some header =>
      if header = "CSPLUTV100" then
        match lines.get? 1 with
        | none => .error .indexError
        | some kind =>
          if kind = "1D" ∨ kind = "3D" then
            readAfterHeader lines (kind = "3D")
          else .error (.formatError "LUT type must be 1D or 3D")
      else .error (.formatError "LUT header is invalid")

/-! ### The writer -/

/-- Errors the writer can surface before opening the file:
`typeError` for unsupported input shapes (the `TypeError` raise and the
`LUTSequence` shape assertion, spec section 7 taxonomy `ShapeError`),
`boundsError` for the size pre-flight checks. -/
inductive WriteError where
  | typeError (msg : String)
  | boundsError (msg : String)
deriving DecidableEq, Repr

/-- `_ragged_size`: per-channel real length of a padded N x 3 array,
the padded length minus the count of NaN entries in that column. -/
def _ragged_size (table : List (List Val)) : List ℕ :=
  [table.length - (table.map (fun row => row.getD 0 none)).countP (fun v => v.isNone),
   table.length - (table.map (fun row => row.getD 1 none)).countP (fun v => v.isNone),
   table.length - (table.map (fun row => row.getD 2 none)).countP (fun v => v.isNone)]

/-- The `(shaper, cube)` pair with presence flags after the writer's
input normalization, plus the caller's object as the call leaves it
(`LUT[0] = LUT[0].convert(LUT3x1D)` mutates a sequence argument in
place; rebinding the local name for a bare LUT does not). -/
structure WriteState where
  shaper : LUT3x1D
  cube : LUT3D
  has3x1D : Bool
  has3D : Bool
  name : String
  caller : LUTValue
deriving DecidableEq, Repr

/-- The accepted `LUTSequence` shape: exactly `(LUT1D|LUT3x1D, LUT3D)`. -/
def validSeqShape (es : List LUTElem) : Bool :=
  match es with
  | [.e1D _, .e3D _] => true
  | [.e3x1D _, .e3D _] => true
  | _ => false

/-- Input normalization of `write_LUT_Cinespace` (source lines 299-331):
sequences must be `(1D|3x1D, 3D)` with the 1D first element promoted;
bare LUTs are paired with an identity placeholder half. -/
def writeNormalize (L : LUTValue) : Except WriteError WriteState :=
  match L with
  | .sequence es =>
    match es with
    | [.e1D l, .e3D c] =>
      .ok ⟨l.convertTo3x1D, c, true, true, l.convertTo3x1D.name ++ " - " ++ c.name,
           .sequence [.e3x1D l.convertTo3x1D, .e3D c]⟩
    | [.e3x1D l, .e3D c] =>
      .ok ⟨l, c, true, true, l.name ++ " - " ++ c.name, .sequence es⟩
    | _ => .error (.typeError "LUTSequence must be 1D plus 3D or 3x1D plus 3D")
  | .single (.e1D l) => .ok ⟨l.convertTo3x1D, LUT3D.placeholder, true, false, l.name, L⟩
  | .single (.e3x1D l) => .ok ⟨l, LUT3D.placeholder, true, false, l.name, L⟩
  | .single (.e3D c) => .ok ⟨LUT3x1D.placeholder, c, false, true, c.name, L⟩

/-- `"{:0.df}".format(q)` style fixed-decimal rendering of a value
(`format_array_as_row` on a scalar; modelled from the spec, the helper
lives outside `src/`): sign, integer digits, a dot and exactly `d`
fractional digits; NaN renders as its literal. -/
def fmtFixed (d : ℕ) (v : Val) : String :=
  match v with
  | none => "nan"
  | some q =>
    let scaled : ℕ := (q.num.natAbs * 10 ^ d * 2 + q.den) / (2 * q.den)
    (if q.num < 0 then "-" else "") ++ natRepr (scaled / 10 ^ d) ++ "." ++
      String.mk (List.replicate (d - (natRepr (scaled % 10 ^ d)).length) '0') ++
      natRepr (scaled % 10 ^ d)

/-- `format_array_as_row` on a 1D array: fixed-decimal entries joined
by single spaces. -/
def joinSpaceChars : List (List Char) → List Char
  | [] => []
  | [t] => t
  | t :: rest => t ++ ' ' :: joinSpaceChars rest

/-- A table/domain row line as the writer emits it for cube rows and
domain pairs. -/
def fmtRow (d : ℕ) (vs : List Val) : String :=
  String.mk (joinSpaceChars (vs.map (fun v => (fmtFixed d v).data)))

/-- A shaper row line as the writer emits it: each entry followed by
one space (the loop writes `f"{entry} "`), so the line carries a
trailing space. -/
def trailRow (d : ℕ) (vs : List Val) : String :=
  String.mk ((vs.map (fun v => (fmtFixed d v).data ++ [' '])).flatten)

/-- One shaper channel block (count line, domain row, value row) in the
`has_3D and has_3x1D` branch: ragged real length for an explicit
domain, else the shaper size with a linearly interpolated domain. -/
def shaperChannelBlock (shaper : LUT3x1D) (d i : ℕ) : List String :=
  let size :=
    if shaper.is_domain_explicit then (_ragged_size shaper.domain).getD i 0
    else shaper.size
  let entry := fun j =>
    if shaper.is_domain_explicit then (shaper.domain.getD j []).getD i none
    else
      optAdd ((shaper.domain.getD 0 []).getD i none)
        (optDivN
          (optMul (some (j : ℚ))
            (optSub ((shaper.domain.getD 1 []).getD i none)
              ((shaper.domain.getD 0 []).getD i none)))
          (shaper.size - 1))
  [natRepr size,
   trailRow d ((List.range size).map entry),
   trailRow d ((List.range size).map (fun j => (shaper.table.getD j []).getD i none))]

/-- The synthetic shaper block written for a bare cube: count 2, the
cube's domain pair, and the formatted `[0, 1]` row. -/
def synthChannelBlock3D (cube : LUT3D) (d i : ℕ) : List String :=
  ["2",
   fmtRow d [(cube.domain.getD 0 []).getD i none, (cube.domain.getD 1 []).getD i none],
   fmtRow d [some 0, some 1]]

/-- The per-channel block of the pure-1D branch: count 2, the shaper's
domain pair, and the literal `"0.0 1.0"` line. -/
def synthChannelBlock1D (shaper : LUT3x1D) (d i : ℕ) : List String :=
  ["2",
   fmtRow d [(shaper.domain.getD 0 []).getD i none, (shaper.domain.getD 1 []).getD i none],
   "0.0 1.0"]

/-- Row `(i, j, k)` of a cube. -/
def cubeRowAt (T : Cube) (i j k : ℕ) : List Val :=
  ((T.getD i []).getD j []).getD k []

/-- `cube.table.reshape([-1, 3], order="F")`: flat row `m` of the cube
is entry `(m % r, (m / r) % g, m / (r * g))`. -/
def cubeFlattenF (T : Cube) : List (List Val) :=
  let r := T.length
  let g := (T.headD []).length
  let b := ((T.headD []).headD []).length
  (List.range (r * g * b)).map (fun m => cubeRowAt T (m % r) ((m / r) % g) (m / (r * g)))

/-- The lines the writer emits (source lines 354-445), one list entry
per physical output line. -/
def writeEmit (shaper : LUT3x1D) (cube : LUT3D) (h1 h3 : Bool) (name : String)
    (d : ℕ) : List String :=
  ["CSPLUTV100"] ++ (if h3 then ["3D", ""] else ["1D", ""]) ++
  ["BEGIN METADATA", name] ++ shaper.comments ++ cube.comments ++
  ["END METADATA", ""] ++
  (if h3 then
    (if h1 then ((List.range 3).map (shaperChannelBlock shaper d)).flatten
     else ((List.range 3).map (synthChannelBlock3D cube d)).flatten) ++
    ["", natRepr cube.table.length ++ " " ++ natRepr (cube.table.headD []).length ++
         " " ++ natRepr ((cube.table.headD []).headD []).length] ++
    (cubeFlattenF cube.table).map (fmtRow d)
  else
    ((List.range 3).map (synthChannelBlock1D shaper d)).flatten ++
    ["", natRepr shaper.size] ++
    shaper.table.map (fmtRow d))

/-- `write_LUT_Cinespace`: normalization and the size pre-flight checks
happen before the file is opened, so an error means nothing is written;
on success the result carries the caller's object as the call leaves it
and the emitted lines. -/
def write_LUT_Cinespace (L : LUTValue) (decimals : ℕ) :
    Except WriteError (LUTValue × List String) :=
  match writeNormalize L with
  | .error e => .error e
  | .ok st =>
    if st.has3x1D ∧ ¬(2 ≤ st.shaper.size ∧ st.shaper.size ≤ 65536) then
      .error (.boundsError "Shaper size must be in domain 2 to 65536")
    else if st.has3D ∧ ¬(2 ≤ st.cube.size ∧ st.cube.size ≤ 256) then
      .error (.boundsError "Cube size must be in domain 2 to 256")
    else .ok (st.caller, writeEmit st.shaper st.cube st.has3x1D st.has3D st.name decimals)

/-! ### Classifiers and well-formedness predicates used in the theorems -/

instance {ε α : Type} [DecidableEq ε] [DecidableEq α] : DecidableEq (Except ε α) :=
  fun a b =>
    match a, b with
    | .ok x, .ok y =>
      if h : x = y then isTrue (by rw [h]) else isFalse (by simp [h])
    | .error x, .error y =>
      if h : x = y then isTrue (by rw [h]) else isFalse (by simp [h])
    | .ok _, .error _ => isFalse (by simp)
    | .error _, .ok _ => isFalse (by simp)

/-- Classifier used to state that a read result is a single `LUT3x1D`. -/
def isSingle3x1D : Except ReadError LUTValue → Bool
  | .ok (.single (.e3x1D _)) => true
  | _ => false

/-- Classifier: the write failed with a bounds error (raised by the
pre-flight check, before the output file is opened, so no file is
created). -/
def isBoundsError : Except WriteError (LUTValue × List String) → Bool
  | .error (.boundsError _) => true
  | _ => false

/-- Classifier: the read failed with the `attest`-style format error. -/
def isFormatError : Except ReadError LUTValue → Bool
  | .error (.formatError _) => true
  | _ => false

/-- A character produced by `digitChar` from a digit. -/
def isDigitC (c : Char) : Prop := ∃ d, d < 10 ∧ c = digitChar d

/-- A line the tokenizer passes through unchanged and the metadata scan
treats as content: already stripped, non-empty, not a section marker. -/
def benign (s : String) : Prop :=
  stripStr s = s ∧ s ≠ "" ∧ s ≠ "BEGIN METADATA" ∧ s ≠ "END METADATA"

/-- A cube table of uniform shape `(r, g, b, 3)`. -/
def cubeWF (r g b : ℕ) (T : Cube) : Prop :=
  T.length = r ∧ ∀ p ∈ T, p.length = g ∧ ∀ q ∈ p, q.length = b ∧ ∀ row ∈ q, row.length = 3

/-! ### Concrete data for the C3 round-trip witness -/

def wit3Q0 : List ℚ := (List.range 10).map (fun n => (n : ℚ))

def wit3Q1 : List ℚ := (List.range 12).map (fun n => (n : ℚ))

def wit3Q2 : List ℚ := (List.range 16).map (fun n => (n : ℚ))

def wit3Shaper : LUT3x1D :=
  { table := (List.range 16).map (fun j => [some (j : ℚ), some (j : ℚ), some (j : ℚ)])
    name := "A"
    domain := (List.range 16).map (fun j =>
      [if j < 10 then some (j : ℚ) else none,
       if j < 12 then some (j : ℚ) else none,
       some (j : ℚ)])
    comments := [] }

def wit3Cube : LUT3D :=
  { table := [[[[some 0, some 0, some 0]]], [[[some 1, some 1, some 1]]]]
    name := "B"
    domain := unity_range
    comments := [] }

/-! ### The kernel-reducible rational operations agree with Mathlib's -/

theorem rat_num_eq_mul_den (a : ℚ) : (a.num : ℚ) = a * a.den := by
  have ha : ((a.den : ℚ)) ≠ 0 := by
    exact_mod_cast a.den_nz
  exact (div_eq_iff ha).mp (Rat.num_div_den a)

theorem ratMul_eq (a b : ℚ) : ratMul a b = a * b := by
  have ha : ((a.den : ℚ)) ≠ 0 := by
    exact_mod_cast a.den_nz
  have hb : ((b.den : ℚ)) ≠ 0 := by
    exact_mod_cast b.den_nz
  rw [ratMul, Rat.mkRat_eq_div]
  push_cast
  rw [div_eq_iff (mul_ne_zero ha hb), rat_num_eq_mul_den a, rat_num_eq_mul_den b]
  ring

theorem ratAdd_eq (a b : ℚ) : ratAdd a b = a + b := by
  have ha : ((a.den : ℚ)) ≠ 0 := by
    exact_mod_cast a.den_nz
  have hb : ((b.den : ℚ)) ≠ 0 := by
    exact_mod_cast b.den_nz
  rw [ratAdd, Rat.mkRat_eq_div]
  push_cast
  rw [div_eq_iff (mul_ne_zero ha hb), rat_num_eq_mul_den a, rat_num_eq_mul_den b]
  ring

theorem ratSub_eq (a b : ℚ) : ratSub a b = a - b := by
  have ha : ((a.den : ℚ)) ≠ 0 := by
    exact_mod_cast a.den_nz
  have hb : ((b.den : ℚ)) ≠ 0 := by
    exact_mod_cast b.den_nz
  rw [ratSub, Rat.mkRat_eq_div]
  push_cast
  rw [div_eq_iff (mul_ne_zero ha hb), rat_num_eq_mul_den a, rat_num_eq_mul_den b]
  ring

theorem ratDivN_eq (a : ℚ) (n : ℕ) : ratDivN a n = a / n := by
  rw [ratDivN, Rat.mkRat_eq_div]
  rcases Nat.eq_zero_or_pos n with h | h
  · simp [h]
  · have ha : ((a.den : ℚ)) ≠ 0 := by
      exact_mod_cast a.den_nz
    have hn : ((n : ℚ)) ≠ 0 := by
      exact_mod_cast h.ne.symm
    push_cast
    rw [div_eq_div_iff (mul_ne_zero ha hn) hn, rat_num_eq_mul_den a]
    ring

/-! ### Reduction lemmas for the reader pipeline -/

theorem read_eq_header (raw : List String) (kind : String)
    (hh : (cspLines raw).get? 0 = some "CSPLUTV100")
    (hk : (cspLines raw).get? 1 = some kind)
    (hkind : kind = "1D" ∨ kind = "3D") :
    read_LUT_Cinespace raw = readAfterHeader (cspLines raw) (kind = "3D") := by
  have hraw : ¬ raw.length = 0 := by
    intro h0
    rw [List.length_eq_zero.mp h0] at hh
    simp [cspLines] at hh
  unfold read_LUT_Cinespace
  simp only [if_neg hraw, hh, hk, if_pos rfl, if_pos hkind]
  simp

theorem readAfterHeader_eq (lines : List String) (is3D : Bool)
    (P : List (List Val)) (size : List ℤ) (table : List (List Val))
    (hdom : parse_domain_section ((lines.drop (metaSeek lines)).take 9) = .ok P)
    (htab : parse_table_section (lines.drop (metaSeek lines + 9)) = .ok (size, table)) :
    readAfterHeader lines is3D =
      if size.prod = (table.length : ℤ) then
        classify is3D (readMeta lines).1 (readMeta lines).2 P size table
      else .error (.formatError "LUT table size is invalid") := by
  unfold readAfterHeader
  rw [hdom, htab]

theorem padToWidth_le (M : ℤ) (row : List Val) (h : (row.length : ℤ) ≤ M) :
    padToWidth M row = .ok (row ++ List.replicate (M - (row.length : ℤ)).toNat none) := by
  unfold padToWidth
  rcases eq_or_lt_of_le h with heq | hlt
  · rw [if_pos heq]
    simp [heq]
  · rw [if_neg (by omega), if_pos hlt]

/-! ### C1: 3D kind with a 6x2 unit-range domain block yields a LUT3D -/

/-- C1.  For every parsed CSP file whose kind line is `"3D"` and whose
parsed domain block has shape 6x2 with the transposed-reshaped `[2:4]`
slice equal to the unit range, `read_LUT_Cinespace` returns a `LUT3D`
whose table is the flat table reshaped to `(size_r, size_g, size_b, 3)`
in column-major (Fortran) order and whose domain is slice `[0:2]` of
the transposed-reshaped domain block. -/
theorem C1_LUT3D_classification (raw : List String) (P : List (List Val))
    (size : List ℤ) (table : List (List Val)) (r g b : ℤ)
    (hh : (cspLines raw).get? 0 = some "CSPLUTV100")
    (hk : (cspLines raw).get? 1 = some "3D")
    (hdom : parse_domain_section
      (((cspLines raw).drop (metaSeek (cspLines raw))).take 9) = .ok P)
    (h62 : shape62 P = true)
    (hu : unitySlice P = true)
    (htab : parse_table_section
      ((cspLines raw).drop (metaSeek (cspLines raw) + 9)) = .ok (size, table))
    (hsz : size = [r, g, b])
    (hprod : r * g * b = (table.length : ℤ))
    (hw : r.toNat * g.toNat * b.toNat * 3 = totalElems table) :
    read_LUT_Cinespace raw = .ok (.single (.e3D
      { table := np_reshapeF_cube r.toNat g.toNat b.toNat table
        name := (readMeta (cspLines raw)).1
        domain := (np_transpose (np_reshape_3_4 P)).take 2
        comments := (readMeta (cspLines raw)).2 })) := by
  rw [read_eq_header raw "3D" hh hk (Or.inr rfl),
    readAfterHeader_eq _ _ P size table hdom htab]
  subst hsz
  rw [if_pos (by simpa [mul_assoc] using hprod)]
  simp [classify, h62, hu, hw]

/-- C1 witness: a unit-range domain block with `is_3D = true`,
`size = [2, 2, 2]` and an identity table classifies as `LUT3D` (visibly
not a `LUTSequence`). -/
theorem C1_LUT3D_classification_witness :
    read_LUT_Cinespace
      ["CSPLUTV100", "3D", "BEGIN METADATA", "Identity", "END METADATA",
       "2", "0.0 1.0", "0.0 1.0", "2", "0.0 1.0", "0.0 1.0",
       "2", "0.0 1.0", "0.0 1.0",
       "2 2 2",
       "0.0 0.0 0.0", "1.0 0.0 0.0", "0.0 1.0 0.0", "1.0 1.0 0.0",
       "0.0 0.0 1.0", "1.0 0.0 1.0", "0.0 1.0 1.0", "1.0 1.0 1.0"] =
    .ok (.single (.e3D
      { table := np_reshapeF_cube 2 2 2
          [[some 0, some 0, some 0], [some 1, some 0, some 0],
           [some 0, some 1, some 0], [some 1, some 1, some 0],
           [some 0, some 0, some 1], [some 1, some 0, some 1],
           [some 0, some 1, some 1], [some 1, some 1, some 1]]
        name := "Identity"
        domain := [[some 0, some 0, some 0], [some 1, some 1, some 1]]
        comments := [] })) :=
  (C1_LUT3D_classification _
    [[some 0, some 1], [some 0, some 1], [some 0, some 1],
     [some 0, some 1], [some 0, some 1], [some 0, some 1]]
    [2, 2, 2]
    [[some 0, some 0, some 0], [some 1, some 0, some 0],
     [some 0, some 1, some 0], [some 1, some 1, some 0],
     [some 0, some 0, some 1], [some 1, some 0, some 1],
     [some 0, some 1, some 1], [some 1, some 1, some 1]]
    2 2 2 (by decide) (by decide) (by decide) (by decide) (by decide)
    (by decide) rfl (by decide) (by decide)).trans (by decide)

/-! ### C4: table size mismatch is rejected -/

/-- C4.  For every CSP file whose table section declares per-axis sizes
whose product differs from the number of table rows that follow,
`read_LUT_Cinespace` fails with the table-size-mismatch format error
and returns no LUT; when the product equals the row count the check
passes and the reader proceeds to classification. -/
theorem C4_table_size_mismatch (raw : List String) (kind : String)
    (P : List (List Val)) (size : List ℤ) (table : List (List Val))
    (hh : (cspLines raw).get? 0 = some "CSPLUTV100")
    (hk : (cspLines raw).get? 1 = some kind)
    (hkind : kind = "1D" ∨ kind = "3D")
    (hdom : parse_domain_section
      (((cspLines raw).drop (metaSeek (cspLines raw))).take 9) = .ok P)
    (htab : parse_table_section
      ((cspLines raw).drop (metaSeek (cspLines raw) + 9)) = .ok (size, table)) :
    (size.prod ≠ (table.length : ℤ) →
      read_LUT_Cinespace raw = .error (.formatError "LUT table size is invalid")) ∧
    (size.prod = (table.length : ℤ) →
      read_LUT_Cinespace raw =
        classify (kind = "3D") (readMeta (cspLines raw)).1 (readMeta (cspLines raw)).2
          P size table) := by
  rw [read_eq_header raw kind hh hk hkind,
    readAfterHeader_eq _ _ P size table hdom htab]
  constructor
  · intro hne
    rw [if_neg hne]
  · intro heq
    rw [if_pos heq]

/-- C4 witness: a table section declaring `size = [2, 2, 2]` but
supplying 7 rows fails with the table-size-mismatch error. -/
theorem C4_table_size_mismatch_witness :
    read_LUT_Cinespace
      ["CSPLUTV100", "3D", "BEGIN METADATA", "T", "END METADATA",
       "2", "0.0 1.0", "0.0 1.0", "2", "0.0 1.0", "0.0 1.0",
       "2", "0.0 1.0", "0.0 1.0",
       "2 2 2",
       "0.0 0.0 0.0", "1.0 0.0 0.0", "0.0 1.0 0.0", "1.0 1.0 0.0",
       "0.0 0.0 1.0", "1.0 0.0 1.0", "0.0 1.0 1.0"] =
    .error (.formatError "LUT table size is invalid") :=
  (C4_table_size_mismatch _ "3D"
    [[some 0, some 1], [some 0, some 1], [some 0, some 1],
     [some 0, some 1], [some 0, some 1], [some 0, some 1]]
    [2, 2, 2]
    [[some 0, some 0, some 0], [some 1, some 0, some 0],
     [some 0, some 1, some 0], [some 1, some 1, some 0],
     [some 0, some 0, some 1], [some 1, some 0, some 1],
     [some 0, some 1, some 1]]
    (by decide) (by decide) (Or.inr rfl) (by decide) (by decide)).1 (by decide)

/-! ### C10: the domain parser uses the declared counts only through
their maximum and does not cross-check them against the rows -/

/-- C10.  In `_parse_domain_section` the three declared per-channel
counts are used only to compute `pre_LUT_size` as their maximum: given
any parsed counts and rows, the parse succeeds whenever no row is
longer than that maximum, each row being padded by its own actual
length, so a channel whose declared count differs from the actual
number of values in its rows is not detected as an error (the result
depends on the counts only through `max c0 (max c3 c6)`). -/
theorem C10_domain_counts_only_max (ls : List String) (c0 c3 c6 : ℤ)
    (r1 r2 r4 r5 r7 r8 : List Val)
    (h0 : getIntAt ls 0 = .ok c0)
    (h3 : getIntAt ls 3 = .ok c3)
    (h6 : getIntAt ls 6 = .ok c6)
    (g1 : getFloatRowAt ls 1 = .ok r1)
    (g2 : getFloatRowAt ls 2 = .ok r2)
    (g4 : getFloatRowAt ls 4 = .ok r4)
    (g5 : getFloatRowAt ls 5 = .ok r5)
    (g7 : getFloatRowAt ls 7 = .ok r7)
    (g8 : getFloatRowAt ls 8 = .ok r8)
    (hle : ∀ row ∈ [r1, r2, r4, r5, r7, r8],
      (row.length : ℤ) ≤ max c0 (max c3 c6)) :
    parse_domain_section ls = .ok
      ([r1, r2, r4, r5, r7, r8].map (fun row =>
        row ++ List.replicate ((max c0 (max c3 c6)) - (row.length : ℤ)).toNat none)) := by
  have p1 := padToWidth_le _ r1 (hle r1 (by simp))
  have p2 := padToWidth_le _ r2 (hle r2 (by simp))
  have p4 := padToWidth_le _ r4 (hle r4 (by simp))
  have p5 := padToWidth_le _ r5 (hle r5 (by simp))
  have p7 := padToWidth_le _ r7 (hle r7 (by simp))
  have p8 := padToWidth_le _ r8 (hle r8 (by simp))
  unfold parse_domain_section
  rw [h0]
  simp only [bind, Except.bind]
  rw [h3]
  simp only [bind, Except.bind]
  rw [h6]
  simp only [bind, Except.bind]
  rw [g1, g2, g4, g5, g7, g8]
  simp only [bind, Except.bind]
  rw [p1, p2, p4, p5, p7, p8]
  simp only [bind, Except.bind, List.map]

/-- C10 witness: declared counts `(2, 3, 2)` with rows of actual
lengths `(3, 3, 3, 3, 2, 2)` parse successfully (no cross-check), each
row padded to the maximum declared count 3 by its own length. -/
theorem C10_domain_counts_only_max_witness :
    parse_domain_section
      ["2", "0.1 0.2 0.3", "0.4 0.5 0.6",
       "3", "0.1 0.2 0.3", "0.4 0.5 0.6",
       "2", "0.1 0.2", "0.4 0.5"] = .ok
      [[some (mkRat 1 10), some (mkRat 2 10), some (mkRat 3 10)],
       [some (mkRat 4 10), some (mkRat 5 10), some (mkRat 6 10)],
       [some (mkRat 1 10), some (mkRat 2 10), some (mkRat 3 10)],
       [some (mkRat 4 10), some (mkRat 5 10), some (mkRat 6 10)],
       [some (mkRat 1 10), some (mkRat 2 10), none],
       [some (mkRat 4 10), some (mkRat 5 10), none]] :=
  (C10_domain_counts_only_max _ 2 3 2
    [some (mkRat 1 10), some (mkRat 2 10), some (mkRat 3 10)]
    [some (mkRat 4 10), some (mkRat 5 10), some (mkRat 6 10)]
    [some (mkRat 1 10), some (mkRat 2 10), some (mkRat 3 10)]
    [some (mkRat 4 10), some (mkRat 5 10), some (mkRat 6 10)]
    [some (mkRat 1 10), some (mkRat 2 10)]
    [some (mkRat 4 10), some (mkRat 5 10)]
    (by decide) (by decide) (by decide) (by decide) (by decide) (by decide)
    (by decide) (by decide) (by decide) (by decide)).trans (by decide)

/-! ### C2: the degenerate 2-row branch of the 1D reader -/

/-- C2 counterexample: a 1D CSP file whose domain block is not the
unit-range form and whose flat table has exactly 2 rows, but of width 1
(a legal pure-1D table): the code tests `table.shape == (2, 3)`, not
the row count, so this file produces a `LUTSequence`, not a single
`LUT3x1D` — refuting the claim as stated. -/
theorem C2_counterexample :
    read_LUT_Cinespace
      ["CSPLUTV100", "1D", "BEGIN METADATA", "T", "END METADATA",
       "2", "0.0 1.0", "0.0 0.5", "2", "0.0 1.0", "0.0 0.5",
       "2", "0.0 1.0", "0.0 0.5",
       "2", "0.25", "0.75"] =
      .ok (.sequence
        [.e3x1D
          { table := [[some 0, some 0, some 0],
                      [some (mkRat 1 2), some (mkRat 1 2), some (mkRat 1 2)]]
            name := "T - PreLUT"
            domain := [[some 0, some 0, some 0], [some 1, some 1, some 1]]
            comments := [] },
         .e3x1D
          { table := [[some (mkRat 1 4)], [some (mkRat 3 4)]]
            name := "T - Table"
            domain := [[some 0, some 0, some 0], [some 1, some 1, some 1]]
            comments := [] }]) ∧
    isSingle3x1D (read_LUT_Cinespace
      ["CSPLUTV100", "1D", "BEGIN METADATA", "T", "END METADATA",
       "2", "0.0 1.0", "0.0 0.5", "2", "0.0 1.0", "0.0 0.5",
       "2", "0.0 1.0", "0.0 0.5",
       "2", "0.25", "0.75"]) = false := by
  constructor
  · decide
  · decide

/-- Element identity of the affine rescale at `min = 0`, `max = 1`. -/
theorem opt_unity (v : Val) :
    optAdd (optMul v (optSub (some 1) (some 0))) (some 0) = v := by
  cases v with
  | none => rfl
  | some q =>
    have h1 : ratSub 1 0 = 1 := by decide
    simp only [optSub, optMul, optAdd, h1, ratMul_eq, ratAdd_eq, mul_one, add_zero]

/-- The affine rescale with range rows `[0,0,0]`, `[1,1,1]` is the
identity on any matrix of width-3 rows. -/
theorem rescale_unity (m : List (List Val)) (hm : ∀ row ∈ m, row.length = 3) :
    m.map (fun row => (List.range 3).map (fun i =>
      optAdd
        (optMul (row.getD i none)
          (optSub (([some 1, some 1, some 1] : List Val).getD i none)
            (([some 0, some 0, some 0] : List Val).getD i none)))
        (([some 0, some 0, some 0] : List Val).getD i none))) = m := by
  induction m with
  | nil => rfl
  | cons row rest ih =>
    have hrow : row.length = 3 := hm row (by simp)
    have hrest : ∀ r ∈ rest, r.length = 3 := fun r hr => hm r (by simp [hr])
    simp only [List.map_cons, ih hrest, List.cons.injEq, and_true]
    match row, hrow with
    | [x, y, z], _ =>
      show [optAdd (optMul x (optSub (some 1) (some 0))) (some 0),
            optAdd (optMul y (optSub (some 1) (some 0))) (some 0),
            optAdd (optMul z (optSub (some 1) (some 0))) (some 0)] = [x, y, z]
      rw [opt_unity, opt_unity, opt_unity]

/-- Every row produced by `tstack3` has width 3. -/
theorem tstack3_width (a b c : List Val) :
    ∀ row ∈ tstack3 a b c, row.length = 3 := by
  intro row hrow
  simp only [tstack3, List.mem_map] at hrow
  obtain ⟨j, _, rfl⟩ := hrow
  rfl

/-- C2 (amended).  For every parsed CSP file whose kind is `"1D"` and
whose domain block is not the 6x2 unit-range form, if the flat table
has shape exactly `(2, 3)` (the code tests the shape, not just the row
count) then `read_LUT_Cinespace` returns a single `LUT3x1D` (no
`LUTSequence`) whose table is the reconstructed per-channel shaper
table affine-rescaled by `table * (max - min) + min` with the 2 rows as
`[min, max]`; when the 2 rows are `[[0,0,0],[1,1,1]]` the returned
table is the raw parsed shaper table unchanged. -/
theorem C2_degenerate_two_row (raw : List String) (P : List (List Val))
    (size : List ℤ) (t0 t1 : List Val)
    (hh : (cspLines raw).get? 0 = some "CSPLUTV100")
    (hk : (cspLines raw).get? 1 = some "1D")
    (hdom : parse_domain_section
      (((cspLines raw).drop (metaSeek (cspLines raw))).take 9) = .ok P)
    (hnu : (shape62 P && unitySlice P) = false)
    (htab : parse_table_section
      ((cspLines raw).drop (metaSeek (cspLines raw) + 9)) = .ok (size, [t0, t1]))
    (h0 : t0.length = 3) (h1 : t1.length = 3)
    (hprod : size.prod = 2) :
    read_LUT_Cinespace raw = .ok (.single (.e3x1D
      { table := (tstack3 (P.getD 1 []) (P.getD 3 []) (P.getD 5 [])).map
          (fun row => (List.range 3).map (fun i =>
            optAdd (optMul (row.getD i none) (optSub (t1.getD i none) (t0.getD i none)))
              (t0.getD i none)))
        name := (readMeta (cspLines raw)).1
        domain := tstack3 (P.getD 0 []) (P.getD 2 []) (P.getD 4 [])
        comments := (readMeta (cspLines raw)).2 })) ∧
    (t0 = [some 0, some 0, some 0] → t1 = [some 1, some 1, some 1] →
      read_LUT_Cinespace raw = .ok (.single (.e3x1D
        { table := tstack3 (P.getD 1 []) (P.getD 3 []) (P.getD 5 [])
          name := (readMeta (cspLines raw)).1
          domain := tstack3 (P.getD 0 []) (P.getD 2 []) (P.getD 4 [])
          comments := (readMeta (cspLines raw)).2 }))) := by
  have hmain : read_LUT_Cinespace raw = .ok (.single (.e3x1D
      { table := (tstack3 (P.getD 1 []) (P.getD 3 []) (P.getD 5 [])).map
          (fun row => (List.range 3).map (fun i =>
            optAdd (optMul (row.getD i none) (optSub (t1.getD i none) (t0.getD i none)))
              (t0.getD i none)))
        name := (readMeta (cspLines raw)).1
        domain := tstack3 (P.getD 0 []) (P.getD 2 []) (P.getD 4 [])
        comments := (readMeta (cspLines raw)).2 })) := by
    rw [read_eq_header raw "1D" hh hk (Or.inl rfl),
      readAfterHeader_eq _ _ P size [t0, t1] hdom htab]
    rw [if_pos (by simp [hprod])]
    have hsh : (shape62 P && unitySlice P) = false := hnu
    rcases Bool.and_eq_false_iff.mp hsh with hc | hc <;>
      simp [classify, hc, h0, h1]
  refine ⟨hmain, fun ht0 ht1 => ?_⟩
  rw [hmain]
  subst ht0 ht1
  rw [rescale_unity _ (tstack3_width _ _ _)]

/-- C2 (amended) witness: a non-unit domain block (shaper value rows
`[0, 0.5]`) with the 2-row `(2, 3)` table `[[0,0,0],[1,1,1]]` yields a
single `LUT3x1D` whose table equals the raw parsed shaper table. -/
theorem C2_degenerate_two_row_witness :
    read_LUT_Cinespace
      ["CSPLUTV100", "1D", "BEGIN METADATA", "T", "END METADATA",
       "2", "0.0 1.0", "0.0 0.5", "2", "0.0 1.0", "0.0 0.5",
       "2", "0.0 1.0", "0.0 0.5",
       "2", "0.0 0.0 0.0", "1.0 1.0 1.0"] =
    .ok (.single (.e3x1D
      { table := [[some 0, some 0, some 0],
                  [some (mkRat 1 2), some (mkRat 1 2), some (mkRat 1 2)]]
        name := "T"
        domain := [[some 0, some 0, some 0], [some 1, some 1, some 1]]
        comments := [] })) :=
  ((C2_degenerate_two_row _
      [[some 0, some 1], [some 0, some (mkRat 1 2)], [some 0, some 1],
       [some 0, some (mkRat 1 2)], [some 0, some 1], [some 0, some (mkRat 1 2)]]
      [2] [some 0, some 0, some 0] [some 1, some 1, some 1]
      (by decide) (by decide) (by decide) (by decide) (by decide)
      (by decide) (by decide) (by decide)).2 rfl rfl).trans (by decide)

/-! ### C5: writer size bounds are checked before any file is opened -/

/-- C5.  For every `write_LUT_Cinespace` call whose present shaper half
has size outside `[2, 65536]` or whose present cube half has size
outside `[2, 256]`, the call fails with a bounds error before the
output file is opened (an `Except.error` result carries no emitted
lines, so no file is created); and a placeholder half is exempt: a bare
cube of valid size writes successfully no matter what the placeholder
shaper half contains, because only the flagged halves are checked. -/
theorem C5_size_bounds :
    (∀ (L : LUTValue) (d : ℕ) (st : WriteState),
      writeNormalize L = .ok st →
      ((st.has3x1D = true ∧ ¬(2 ≤ st.shaper.size ∧ st.shaper.size ≤ 65536)) ∨
       (st.has3D = true ∧ ¬(2 ≤ st.cube.size ∧ st.cube.size ≤ 256))) →
      isBoundsError (write_LUT_Cinespace L d) = true) ∧
    (∀ (c : LUT3D) (d : ℕ), 2 ≤ c.size → c.size ≤ 256 →
      write_LUT_Cinespace (.single (.e3D c)) d =
        .ok (.single (.e3D c), writeEmit LUT3x1D.placeholder c false true c.name d)) := by
  constructor
  · intro L d st hn hbad
    unfold write_LUT_Cinespace
    rw [hn]
    dsimp only
    by_cases h1 : st.has3x1D = true ∧ ¬(2 ≤ st.shaper.size ∧ st.shaper.size ≤ 65536)
    · rw [if_pos h1]
      rfl
    · rw [if_neg h1, if_pos (hbad.resolve_left h1)]
      rfl
  · intro c d h2 h3
    have hn : writeNormalize (.single (.e3D c)) =
        .ok ⟨LUT3x1D.placeholder, c, false, true, c.name, .single (.e3D c)⟩ := rfl
    unfold write_LUT_Cinespace
    rw [hn]
    dsimp only
    rw [if_neg (by simp), if_neg (by simp [h2, h3])]

set_option maxRecDepth 4000 in
/-- C5 witness: writing a cube LUT whose size (first table axis) is 300
fails with the bounds error, hence produces no file content. -/
theorem C5_size_bounds_witness :
    isBoundsError (write_LUT_Cinespace
      (.single (.e3D { table := List.replicate 300 [], name := "B",
                       domain := [], comments := [] })) 7) = true :=
  C5_size_bounds.1 _ 7
    ⟨LUT3x1D.placeholder,
     { table := List.replicate 300 [], name := "B", domain := [], comments := [] },
     false, true, "B",
     .single (.e3D { table := List.replicate 300 [], name := "B",
                     domain := [], comments := [] })⟩
    rfl (Or.inr ⟨rfl, by decide⟩)

/-! ### C6: unsupported sequence shapes are rejected before any I/O -/

/-- A normalization error is the writer's result, with nothing emitted. -/
theorem write_err (L : LUTValue) (d : ℕ) (e : WriteError)
    (hn : writeNormalize L = .error e) :
    write_LUT_Cinespace L d = .error e := by
  unfold write_LUT_Cinespace
  rw [hn]

/-- Sequences of an unsupported shape fail normalization. -/
theorem writeNormalize_invalid (es : List LUTElem)
    (hv : validSeqShape es = false) :
    writeNormalize (.sequence es) =
      .error (.typeError "LUTSequence must be 1D plus 3D or 3x1D plus 3D") := by
  rcases es with _ | ⟨e1, _ | ⟨e2, _ | ⟨e3, rest⟩⟩⟩
  · rfl
  · cases e1 <;> rfl
  · cases e1 <;> cases e2 <;> first
      | rfl
      | simp [validSeqShape] at hv
  · cases e1 <;> cases e2 <;> rfl

/-- A call that returned a pair cannot have failed normalization. -/
theorem write_ok_elim (L : LUTValue) (d : ℕ) (st : LUTValue) (ls : List String)
    (h : write_LUT_Cinespace L d = .ok (st, ls))
    (e : WriteError) (hn : writeNormalize L = .error e) : False := by
  rw [write_err L d e hn] at h
  exact absurd h (by simp)

/-- On success the writer returns the caller state recorded by the
normalization. -/
theorem write_ok_caller (L : LUTValue) (d : ℕ) (stN : WriteState)
    (st : LUTValue) (ls : List String)
    (hn : writeNormalize L = .ok stN)
    (h : write_LUT_Cinespace L d = .ok (st, ls)) : st = stN.caller := by
  unfold write_LUT_Cinespace at h
  rw [hn] at h
  dsimp only at h
  split at h
  · exact absurd h (by simp)
  · split at h
    · exact absurd h (by simp)
    · simp only [Except.ok.injEq, Prod.mk.injEq] at h
      exact h.1.symm

/-- C6.  Every `LUTSequence` argument that is not exactly a length-2
sequence of a `LUT1D` or `LUT3x1D` followed by a `LUT3D` makes
`write_LUT_Cinespace` fail with the `TypeError`-class shape error
before any I/O occurs (the `Except.error` result carries no emitted
lines); and a `LUT1D` first element of a valid sequence is promoted to
`LUT3x1D` by the normalization rather than rejected. -/
theorem C6_sequence_shape :
    (∀ (es : List LUTElem) (d : ℕ), validSeqShape es = false →
      write_LUT_Cinespace (.sequence es) d =
        .error (.typeError "LUTSequence must be 1D plus 3D or 3x1D plus 3D")) ∧
    (∀ (l : LUT1D) (c : LUT3D),
      writeNormalize (.sequence [.e1D l, .e3D c]) =
        .ok ⟨l.convertTo3x1D, c, true, true,
             l.convertTo3x1D.name ++ " - " ++ c.name,
             .sequence [.e3x1D l.convertTo3x1D, .e3D c]⟩) := by
  constructor
  · intro es d hv
    exact write_err _ d _ (writeNormalize_invalid es hv)
  · intro l c
    rfl

/-- C6 witness: a cube-plus-cube sequence is rejected with the shape
error, while a `(LUT1D, LUT3D)` sequence normalizes with the first
element promoted. -/
theorem C6_sequence_shape_witness :
    write_LUT_Cinespace
      (.sequence [.e3D LUT3D.placeholder, .e3D LUT3D.placeholder]) 7 =
      .error (.typeError "LUTSequence must be 1D plus 3D or 3x1D plus 3D") ∧
    writeNormalize
      (.sequence [.e1D { table := [some 0, some 1], name := "L",
                         domain := [some 0, some 1], comments := [] },
                  .e3D LUT3D.placeholder]) =
      .ok ⟨{ table := [[some 0, some 0, some 0], [some 1, some 1, some 1]],
             name := "L",
             domain := [[some 0, some 0, some 0], [some 1, some 1, some 1]],
             comments := [] },
           LUT3D.placeholder, true, true, "L - Unity",
           .sequence [.e3x1D { table := [[some 0, some 0, some 0],
                                         [some 1, some 1, some 1]],
                               name := "L",
                               domain := [[some 0, some 0, some 0],
                                          [some 1, some 1, some 1]],
                               comments := [] },
                      .e3D LUT3D.placeholder]⟩ :=
  ⟨C6_sequence_shape.1 _ 7 (by decide),
   (C6_sequence_shape.2
     { table := [some 0, some 1], name := "L",
       domain := [some 0, some 1], comments := [] }
     LUT3D.placeholder).trans (by decide)⟩

/-! ### C9: the writer leaves the caller's object unchanged except for
the in-place 1D promotion inside a sequence -/

/-- C9.  For every input accepted by `write_LUT_Cinespace`, the
caller's object after the call is either unchanged or — solely when the
argument is a sequence whose first element is a bare 1D table — that
sequence with its first element promoted to a 3-channel table (the
`LUT[0] = LUT[0].convert(LUT3x1D)` assignment mutates the sequence in
place; bare LUT arguments are only rebound locally, never mutated). -/
theorem C9_frame_effect (L : LUTValue) (d : ℕ) (st : LUTValue) (ls : List String)
    (h : write_LUT_Cinespace L d = .ok (st, ls)) :
    st = L ∨ ∃ l c, L = .sequence [.e1D l, .e3D c] ∧
      st = .sequence [.e3x1D l.convertTo3x1D, .e3D c] := by
  rcases L with e | es
  · cases e with
    | e1D l =>
      exact Or.inl (write_ok_caller (.single (.e1D l)) d
        ⟨l.convertTo3x1D, LUT3D.placeholder, true, false, l.name,
         .single (.e1D l)⟩ _ _ rfl h)
    | e3x1D l =>
      exact Or.inl (write_ok_caller (.single (.e3x1D l)) d
        ⟨l, LUT3D.placeholder, true, false, l.name, .single (.e3x1D l)⟩ _ _ rfl h)
    | e3D c =>
      exact Or.inl (write_ok_caller (.single (.e3D c)) d
        ⟨LUT3x1D.placeholder, c, false, true, c.name, .single (.e3D c)⟩ _ _ rfl h)
  · rcases es with _ | ⟨e1, _ | ⟨e2, _ | ⟨e3, rest⟩⟩⟩
    · exact (write_ok_elim _ d st ls h _ (writeNormalize_invalid _ rfl)).elim
    · cases e1 <;>
        exact (write_ok_elim _ d st ls h _ (writeNormalize_invalid _ rfl)).elim
    · cases e1 with
      | e1D l =>
        cases e2 with
        | e3D c =>
          exact Or.inr ⟨l, c, rfl, write_ok_caller
            (.sequence [.e1D l, .e3D c]) d
            ⟨l.convertTo3x1D, c, true, true, l.convertTo3x1D.name ++ " - " ++ c.name,
             .sequence [.e3x1D l.convertTo3x1D, .e3D c]⟩ _ _ rfl h⟩
        | e1D l2 =>
          exact (write_ok_elim _ d st ls h _ (writeNormalize_invalid _ rfl)).elim
        | e3x1D l2 =>
          exact (write_ok_elim _ d st ls h _ (writeNormalize_invalid _ rfl)).elim
      | e3x1D l =>
        cases e2 with
        | e3D c =>
          exact Or.inl (write_ok_caller (.sequence [.e3x1D l, .e3D c]) d
            ⟨l, c, true, true, l.name ++ " - " ++ c.name,
             .sequence [.e3x1D l, .e3D c]⟩ _ _ rfl h)
        | e1D l2 =>
          exact (write_ok_elim _ d st ls h _ (writeNormalize_invalid _ rfl)).elim
        | e3x1D l2 =>
          exact (write_ok_elim _ d st ls h _ (writeNormalize_invalid _ rfl)).elim
      | e3D c =>
        cases e2 <;>
          exact (write_ok_elim _ d st ls h _ (writeNormalize_invalid _ rfl)).elim
    · cases e1 <;> cases e2 <;>
        exact (write_ok_elim _ d st ls h _ (writeNormalize_invalid _ rfl)).elim

/-! ### C7: behaviour on empty and whitespace-only files -/

/-- C7 counterexample: a file containing a single whitespace-only line
passes the emptiness assertion (which counts raw lines before any
trimming) and fails with an `IndexError`-class out-of-range access when
the header line is fetched — not with a `FormatError`-class error as
the claim states. -/
theorem C7_counterexample :
    read_LUT_Cinespace ["   "] = .error .indexError ∧
    isFormatError (read_LUT_Cinespace ["   "]) = false := by
  constructor
  · decide
  · decide

/-- C7 (amended).  Reading fails for every file whose trimmed non-empty
line sequence is empty, but the `FormatError`-class emptiness assertion
fires only for a file with no lines at all; a non-empty file whose
lines all trim to nothing passes that check (it counts raw lines before
trimming) and instead fails with an out-of-range line access when the
header is read. -/
theorem C7_empty_file (raw : List String) :
    (raw = [] → read_LUT_Cinespace raw = .error (.formatError "LUT is empty")) ∧
    (raw ≠ [] → cspLines raw = [] → read_LUT_Cinespace raw = .error .indexError) := by
  constructor
  · intro h
    subst h
    rfl
  · intro hne hcsp
    unfold read_LUT_Cinespace
    rw [if_neg (fun h0 => hne (List.length_eq_zero.mp h0)), hcsp]
    rfl

/-- C7 (amended) witness: the empty file trips the emptiness assertion;
the whitespace-only file trips the index error. -/
theorem C7_empty_file_witness :
    read_LUT_Cinespace [] = .error (.formatError "LUT is empty") ∧
    read_LUT_Cinespace ["   "] = .error .indexError :=
  ⟨(C7_empty_file []).1 rfl, (C7_empty_file ["   "]).2 (by decide) (by decide)⟩

/-! ### C8: files without a metadata block are misparsed -/

/-- C8 (code bug).  The metadata scan only sets `seek` when it breaks
at an `END METADATA` line, but the reader unconditionally executes
`seek += 1` afterwards — correct only when the terminator was found.
For a well-formed file with no metadata block the domain section is
therefore read one line too late (`metaSeek` is 3, i.e. the first
domain count line at index 2 is skipped), and the shifted parse fails
with a `ValueError` (here: `int("0.0 1.0")`) instead of succeeding with
an empty title as the spec states.  The same numeric body with a
metadata block inserted parses fine, which shows the file is otherwise
well-formed. -/
theorem C8_no_metadata_misparse :
    read_LUT_Cinespace
      ["CSPLUTV100", "1D",
       "2", "0.0 1.0", "0.0 1.0", "2", "0.0 1.0", "0.0 1.0",
       "2", "0.0 1.0", "0.0 1.0",
       "2", "0.0 0.0 0.0", "1.0 1.0 1.0"] = .error .valueError ∧
    metaSeek
      ["CSPLUTV100", "1D",
       "2", "0.0 1.0", "0.0 1.0", "2", "0.0 1.0", "0.0 1.0",
       "2", "0.0 1.0", "0.0 1.0",
       "2", "0.0 0.0 0.0", "1.0 1.0 1.0"] = 3 ∧
    read_LUT_Cinespace
      ["CSPLUTV100", "1D", "BEGIN METADATA", "T", "END METADATA",
       "2", "0.0 1.0", "0.0 1.0", "2", "0.0 1.0", "0.0 1.0",
       "2", "0.0 1.0", "0.0 1.0",
       "2", "0.0 0.0 0.0", "1.0 1.0 1.0"] =
      .ok (.single (.e3x1D
        { table := [[some 0, some 0, some 0], [some 1, some 1, some 1]]
          name := "T"
          domain := [[some 0, some 0, some 0], [some 1, some 1, some 1]]
          comments := [] })) := by
  refine ⟨by decide, by decide, by decide⟩

/-- C9 witness: writing a `(LUT1D, LUT3D)` sequence succeeds and the
caller state falls under the promotion disjunct. -/
theorem C9_frame_effect_witness :
    (LUTValue.sequence
      [.e3x1D (LUT1D.convertTo3x1D
        { table := [some 0, some 1], name := "L",
          domain := [some 0, some 1], comments := [] }),
       .e3D LUT3D.placeholder]) =
      (.sequence [.e1D { table := [some 0, some 1], name := "L",
                         domain := [some 0, some 1], comments := [] },
                  .e3D LUT3D.placeholder]) ∨
    ∃ l c,
      (LUTValue.sequence
        [.e1D { table := [some 0, some 1], name := "L",
                domain := [some 0, some 1], comments := [] },
         .e3D LUT3D.placeholder]) = .sequence [.e1D l, .e3D c] ∧
      (LUTValue.sequence
        [.e3x1D (LUT1D.convertTo3x1D
          { table := [some 0, some 1], name := "L",
            domain := [some 0, some 1], comments := [] }),
         .e3D LUT3D.placeholder]) =
        .sequence [.e3x1D l.convertTo3x1D, .e3D c] :=
  C9_frame_effect
    (.sequence [.e1D { table := [some 0, some 1], name := "L",
                       domain := [some 0, some 1], comments := [] },
                .e3D LUT3D.placeholder]) 7
    (.sequence
      [.e3x1D (LUT1D.convertTo3x1D
        { table := [some 0, some 1], name := "L",
          domain := [some 0, some 1], comments := [] }),
       .e3D LUT3D.placeholder])
    (writeEmit
      (LUT1D.convertTo3x1D
        { table := [some 0, some 1], name := "L",
          domain := [some 0, some 1], comments := [] })
      LUT3D.placeholder true true
      ((LUT1D.convertTo3x1D
        { table := [some 0, some 1], name := "L",
          domain := [some 0, some 1], comments := [] }).name ++ " - " ++
        LUT3D.placeholder.name) 7)
    rfl

/-! ### C3 infrastructure: decimal tokens round-trip through the
formatter and the tokenizer -/

theorem digitVal_digitChar (d : ℕ) (h : d < 10) :
    digitVal (digitChar d) = some d := by
  interval_cases d <;> rfl

theorem natToDigitsRevGo_lt (fuel n : ℕ) (h : n ≤ fuel) :
    ∀ d ∈ natToDigitsRevGo fuel n, d < 10 := by
  induction fuel generalizing n with
  | zero =>
    intro d hd
    interval_cases n
    simp [natToDigitsRevGo] at hd
    omega
  | succ fuel ih =>
    intro d hd
    by_cases h10 : n < 10
    · simp [natToDigitsRevGo, h10] at hd
      omega
    · simp only [natToDigitsRevGo, if_neg h10, List.mem_cons] at hd
      rcases hd with rfl | hd
      · exact Nat.mod_lt _ (by omega)
      · exact ih (n / 10) (by omega) d hd

theorem natToDigitsRevGo_ne_nil (fuel n : ℕ) : natToDigitsRevGo fuel n ≠ [] := by
  cases fuel with
  | zero => simp [natToDigitsRevGo]
  | succ fuel =>
    by_cases h10 : n < 10 <;> simp [natToDigitsRevGo, h10]

theorem digitsValFrom_append (n : ℕ) (a b : List Char) :
    digitsValFrom n (a ++ b) =
      match digitsValFrom n a with
      | some m => digitsValFrom m b
      | none => none := by
  induction a generalizing n with
  | nil => rfl
  | cons c rest ih =>
    simp only [List.cons_append, digitsValFrom]
    cases digitVal c with
    | some d => exact ih (n * 10 + d)
    | none => rfl

theorem digitsValFrom_isSome (n : ℕ) (cs : List Char)
    (h : ∀ c ∈ cs, isDigitC c) : (digitsValFrom n cs).isSome := by
  induction cs generalizing n with
  | nil => rfl
  | cons c rest ih =>
    obtain ⟨d, hd, rfl⟩ := h c (by simp)
    simp only [digitsValFrom, digitVal_digitChar d hd]
    exact ih _ (fun x hx => h x (by simp [hx]))

theorem digitsVal_natToDigitsRevGo (fuel n : ℕ) (h : n ≤ fuel) :
    digitsVal ((natToDigitsRevGo fuel n).reverse.map digitChar) = some n := by
  induction fuel generalizing n with
  | zero =>
    interval_cases n
    rfl
  | succ fuel ih =>
    by_cases h10 : n < 10
    · simp only [natToDigitsRevGo, if_pos h10, List.reverse_singleton, List.map_cons,
        List.map_nil, digitsVal, digitsValFrom, digitVal_digitChar n h10]
      simp
    · have hrec : n / 10 ≤ fuel := by
        have hlt : n / 10 < n := Nat.div_lt_self (by omega) (by omega)
        omega
      simp only [natToDigitsRevGo, if_neg h10, List.reverse_cons, List.map_append,
        List.map_cons, List.map_nil]
      unfold digitsVal
      rw [digitsValFrom_append]
      have := ih (n / 10) hrec
      unfold digitsVal at this
      rw [this]
      simp only [digitsValFrom, digitVal_digitChar (n % 10) (Nat.mod_lt _ (by omega))]
      congr 1
      omega

theorem natRepr_chars (n : ℕ) : ∀ c ∈ (natRepr n).data, isDigitC c := by
  intro c hc
  simp only [natRepr, String.mk, List.mem_map, List.mem_reverse] at hc
  obtain ⟨d, hd, rfl⟩ := hc
  exact ⟨d, natToDigitsRevGo_lt n n le_rfl d hd, rfl⟩

theorem natRepr_ne_nil (n : ℕ) : (natRepr n).data ≠ [] := by
  simp only [natRepr, String.mk, ne_eq, List.map_eq_nil_iff, List.reverse_eq_nil_iff]
  exact natToDigitsRevGo_ne_nil n n

theorem digitsVal_natRepr (n : ℕ) : digitsVal (natRepr n).data = some n :=
  digitsVal_natToDigitsRevGo n n le_rfl

/-- Digit characters are not whitespace, not signs, not dots, not `n`. -/
theorem isDigitC_facts (c : Char) (h : isDigitC c) :
    isWS c = false ∧ c ≠ '-' ∧ c ≠ '+' ∧ c ≠ '.' ∧ c ≠ 'n' := by
  obtain ⟨d, hd, rfl⟩ := h
  interval_cases d <;> refine ⟨rfl, by decide, by decide, by decide, by decide⟩

theorem trimChars_of_noWS (cs : List Char) (h : ∀ c ∈ cs, isWS c = false) :
    trimChars cs = cs := by
  have h1 : cs.dropWhile isWS = cs := by
    cases cs with
    | nil => rfl
    | cons c rest => simp [List.dropWhile_cons, h c (by simp)]
  have h2 : cs.reverse.dropWhile isWS = cs.reverse := by
    cases hrev : cs.reverse with
    | nil => rfl
    | cons c rest =>
      have hc : c ∈ cs := by
        have : c ∈ cs.reverse := by simp [hrev]
        simpa using this
      simp [List.dropWhile_cons, h c hc]
  simp [trimChars, h1, h2]

theorem parseIntChars_digits (cs : List Char) (hne : cs ≠ [])
    (h : ∀ c ∈ cs, isDigitC c) :
    parseIntChars cs = (digitsVal cs).map (fun n => (n : ℤ)) := by
  cases cs with
  | nil => exact absurd rfl hne
  | cons c rest =>
    have hc := isDigitC_facts c (h c (by simp))
    obtain ⟨d, hd, rfl⟩ := h c (by simp)
    interval_cases d <;> simp [parseIntChars, digitChar]

theorem parseIntTok_natRepr (n : ℕ) : parseIntTok (natRepr n) = some (n : ℤ) := by
  unfold parseIntTok
  rw [trimChars_of_noWS _ (fun c hc => (isDigitC_facts c (natRepr_chars n c hc)).1),
    parseIntChars_digits _ (natRepr_ne_nil n) (natRepr_chars n), digitsVal_natRepr]
  rfl

theorem str_data_append (a b : String) : (a ++ b).data = a.data ++ b.data := rfl

theorem splitDotAux_no_dot (B : List Char) (hB : ∀ c ∈ B, c ≠ '.') :
    ∀ acc, splitDotAux B acc = [acc.reverse ++ B] := by
  induction B with
  | nil => intro acc; simp [splitDotAux]
  | cons c rest ih =>
    intro acc
    simp only [splitDotAux, if_neg (hB c (by simp))]
    rw [ih (fun x hx => hB x (by simp [hx])) (c :: acc)]
    simp

theorem splitDotAux_mid (A B : List Char) (hA : ∀ c ∈ A, c ≠ '.')
    (hB : ∀ c ∈ B, c ≠ '.') :
    ∀ acc, splitDotAux (A ++ '.' :: B) acc = [acc.reverse ++ A, B] := by
  induction A with
  | nil =>
    intro acc
    simp only [List.nil_append, splitDotAux, if_pos rfl]
    rw [splitDotAux_no_dot B hB []]
    simp
  | cons c rest ih =>
    intro acc
    simp only [List.cons_append, splitDotAux, if_neg (hA c (by simp))]
    simp only [List.append_eq]
    rw [ih (fun x hx => hA x (by simp [hx])) (c :: acc)]
    simp

theorem parseUFloat_digits (A B : List Char) (hA : ∀ c ∈ A, isDigitC c)
    (hB : ∀ c ∈ B, isDigitC c) (hAne : A ≠ []) :
    ∃ r : ℚ, parseUFloat (A ++ '.' :: B) = some r := by
  unfold parseUFloat
  rw [splitDotAux_mid A B
    (fun c hc => (isDigitC_facts c (hA c hc)).2.2.2.1)
    (fun c hc => (isDigitC_facts c (hB c hc)).2.2.2.1) []]
  simp only [List.reverse_nil, List.nil_append]
  rw [if_neg (fun h => hAne h.1)]
  obtain ⟨x, hx⟩ := Option.isSome_iff_exists.mp (digitsValFrom_isSome 0 A hA)
  obtain ⟨y, hy⟩ := Option.isSome_iff_exists.mp (digitsValFrom_isSome 0 B hB)
  unfold digitsVal
  rw [hx, hy]
  exact ⟨_, rfl⟩

theorem parseFloatChars_digit_head (c1 : Char) (rest : List Char)
    (h1 : isDigitC c1) :
    parseFloatChars (c1 :: rest) =
      (parseUFloat (c1 :: rest)).map (fun q => some q) := by
  obtain ⟨d, hd, rfl⟩ := h1
  interval_cases d <;> simp [parseFloatChars, digitChar]

theorem parseFloatChars_neg_digit (c1 : Char) (rest : List Char)
    (h1 : isDigitC c1) :
    parseFloatChars ('-' :: c1 :: rest) =
      (parseUFloat (c1 :: rest)).map (fun q => some (-q)) := by
  obtain ⟨d, hd, rfl⟩ := h1
  interval_cases d <;> simp [parseFloatChars, digitChar]

theorem fmt_zeros_digits (k : ℕ) : ∀ c ∈ List.replicate k '0', isDigitC c := by
  intro c hc
  rw [List.eq_of_mem_replicate hc]
  exact ⟨0, by omega, rfl⟩

/-- Parsing the fixed-decimal rendering of a value always succeeds, and
preserves NaN-ness: a formatted number parses to a number, the literal
`nan` parses back to NaN. -/
theorem parseFloatChars_fmtFixed (d : ℕ) (v : Val) :
    ∃ w : Val, parseFloatChars (fmtFixed d v).data = some w ∧
      (w.isSome ↔ v.isSome) := by
  cases v with
  | none => exact ⟨none, rfl, by simp⟩
  | some q =>
    have hip := natRepr_chars ((q.num.natAbs * 10 ^ d * 2 + q.den) / (2 * q.den) / 10 ^ d)
    have hfp := natRepr_chars ((q.num.natAbs * 10 ^ d * 2 + q.den) / (2 * q.den) % 10 ^ d)
    have hipne := natRepr_ne_nil ((q.num.natAbs * 10 ^ d * 2 + q.den) / (2 * q.den) / 10 ^ d)
    set ipc := (natRepr ((q.num.natAbs * 10 ^ d * 2 + q.den) / (2 * q.den) / 10 ^ d)).data with hipc
    set fpc := (natRepr ((q.num.natAbs * 10 ^ d * 2 + q.den) / (2 * q.den) % 10 ^ d)).data with hfpc
    set k := d - (natRepr ((q.num.natAbs * 10 ^ d * 2 + q.den) / (2 * q.den) % 10 ^ d)).length with hk
    have hB : ∀ c ∈ List.replicate k '0' ++ fpc, isDigitC c := by
      intro c hc
      rcases List.mem_append.mp hc with hc | hc
      · exact fmt_zeros_digits k c hc
      · exact hfp c hc
    have hdata : (fmtFixed d (some q)).data =
        (if q.num < 0 then ['-'] else []) ++ (ipc ++ '.' :: (List.replicate k '0' ++ fpc)) := by
      show ((if q.num < 0 then "-" else "") ++ _ ++ "." ++ _ ++ _).data = _
      by_cases hneg : q.num < 0 <;>
        simp [hneg, str_data_append, String.mk, List.append_assoc]
    obtain ⟨a0, A', ha⟩ := List.exists_cons_of_ne_nil hipne
    obtain ⟨r, hr⟩ := parseUFloat_digits ipc (List.replicate k '0' ++ fpc) hip hB hipne
    rw [hdata]
    by_cases hneg : q.num < 0
    · rw [if_pos hneg]
      rw [show (['-'] ++ (ipc ++ '.' :: (List.replicate k '0' ++ fpc))) =
        '-' :: (ipc ++ '.' :: (List.replicate k '0' ++ fpc)) from rfl]
      rw [ha, List.cons_append,
        parseFloatChars_neg_digit a0 (A' ++ '.' :: (List.replicate k '0' ++ fpc))
          (hip a0 (by rw [ha]; simp)), ← List.cons_append, ← ha, hr]
      exact ⟨some (-r), rfl, by simp⟩
    · rw [if_neg hneg, List.nil_append]
      rw [ha, List.cons_append,
        parseFloatChars_digit_head a0 (A' ++ '.' :: (List.replicate k '0' ++ fpc))
          (hip a0 (by rw [ha]; simp)), ← List.cons_append, ← ha, hr]
      exact ⟨some r, rfl, by simp⟩

/-! ### Whitespace-splitting lemmas -/

theorem wordsAux_allWS (sfx : List Char) (acc : List Char)
    (h : ∀ c ∈ sfx, isWS c = true) :
    wordsAux sfx acc = wordsAux [] acc := by
  induction sfx generalizing acc with
  | nil => rfl
  | cons c rest ih =>
    have hc := h c (by simp)
    have hrest : ∀ x ∈ rest, isWS x = true := fun x hx => h x (by simp [hx])
    simp only [wordsAux, hc, if_true]
    by_cases hacc : acc = []
    · subst hacc
      rw [ih [] hrest]
      rfl
    · rw [if_neg hacc, ih [] hrest]
      simp [wordsAux, hacc]

theorem wordsAux_append_ws (xs sfx : List Char) (acc : List Char)
    (h : ∀ c ∈ sfx, isWS c = true) :
    wordsAux (xs ++ sfx) acc = wordsAux xs acc := by
  induction xs generalizing acc with
  | nil => exact wordsAux_allWS sfx acc h
  | cons c rest ih =>
    simp only [List.cons_append, wordsAux, List.append_eq]
    by_cases hc : isWS c = true
    · rw [if_pos hc, if_pos hc]
      by_cases hacc : acc = []
      · rw [if_pos hacc, if_pos hacc, ih []]
      · rw [if_neg hacc, if_neg hacc, ih []]
    · rw [if_neg hc, if_neg hc, ih (c :: acc)]

theorem wordsAux_ws_pre (pre cs : List Char)
    (h : ∀ c ∈ pre, isWS c = true) :
    wordsAux (pre ++ cs) [] = wordsAux cs [] := by
  induction pre with
  | nil => rfl
  | cons c rest ih =>
    simp only [List.cons_append, wordsAux, h c (by simp), if_true, if_pos rfl]
    exact ih (fun x hx => h x (by simp [hx]))

theorem wordsAux_trimChars (cs : List Char) :
    wordsAux (trimChars cs) [] = wordsAux cs [] := by
  have h1 : cs = cs.takeWhile isWS ++ cs.dropWhile isWS :=
    (List.takeWhile_append_dropWhile isWS cs).symm
  have hpre : ∀ c ∈ cs.takeWhile isWS, isWS c = true :=
    fun c hc => List.mem_takeWhile_imp hc
  set ds := cs.dropWhile isWS with hds
  have h2 : ds = (ds.reverse.dropWhile isWS).reverse ++ (ds.reverse.takeWhile isWS).reverse := by
    conv_lhs => rw [← List.reverse_reverse ds]
    rw [← List.reverse_append]
    congr 1
    exact (List.takeWhile_append_dropWhile isWS ds.reverse).symm
  have hsfx : ∀ c ∈ (ds.reverse.takeWhile isWS).reverse, isWS c = true := by
    intro c hc
    exact List.mem_takeWhile_imp (List.mem_reverse.mp hc)
  calc wordsAux (trimChars cs) []
      = wordsAux ((ds.reverse.dropWhile isWS).reverse ++ (ds.reverse.takeWhile isWS).reverse) [] := by
        rw [wordsAux_append_ws _ _ [] hsfx]
        rfl
    _ = wordsAux ds [] := by rw [← h2]
    _ = wordsAux cs [] := by
        conv_rhs => rw [h1]
        rw [wordsAux_ws_pre _ _ hpre]

theorem wordsAux_single (t : List Char) (acc : List Char)
    (ht : ∀ c ∈ t, isWS c = false) :
    wordsAux t acc = if (acc.reverse ++ t) = [] then [] else [acc.reverse ++ t] := by
  induction t generalizing acc with
  | nil => simp [wordsAux]
  | cons c rest ih =>
    have hc := ht c (by simp)
    simp only [wordsAux, hc, Bool.false_eq_true, if_false]
    rw [ih (c :: acc) (fun x hx => ht x (by simp [hx]))]
    simp

theorem wordsAux_token (t rest : List Char) (acc : List Char)
    (ht : ∀ c ∈ t, isWS c = false) :
    wordsAux (t ++ ' ' :: rest) acc =
      if (acc.reverse ++ t) = [] then wordsAux rest []
      else (acc.reverse ++ t) :: wordsAux rest [] := by
  induction t generalizing acc with
  | nil =>
    simp only [List.nil_append, wordsAux, show isWS ' ' = true from rfl, if_true,
      List.append_nil]
    by_cases hacc : acc = []
    · subst hacc; simp
    · rw [if_neg hacc, if_neg (by simp [hacc])]
  | cons c rest2 ih =>
    have hc := ht c (by simp)
    simp only [List.cons_append, wordsAux, hc, Bool.false_eq_true, if_false,
      List.append_eq]
    rw [ih (c :: acc) (fun x hx => ht x (by simp [hx]))]
    simp

/-- A whitespace-free non-empty token followed by one space each:
splitting recovers the token list (the shaper-row line shape). -/
theorem words_trail (toks : List (List Char))
    (h : ∀ t ∈ toks, t ≠ [] ∧ ∀ c ∈ t, isWS c = false) :
    wordsAux ((toks.map (fun t => t ++ [' '])).flatten) [] = toks := by
  induction toks with
  | nil => rfl
  | cons t ts ih =>
    have ht := h t (by simp)
    simp only [List.map_cons, List.flatten_cons, List.append_assoc, List.cons_append,
      List.nil_append]
    rw [wordsAux_token t _ [] ht.2]
    rw [if_neg (by simpa using ht.1)]
    simp only [List.reverse_nil, List.nil_append]
    rw [ih (fun x hx => h x (by simp [hx]))]

/-- Tokens joined by single spaces: splitting recovers the token list
(the cube-row and size-line shape). -/
theorem words_join (toks : List (List Char))
    (h : ∀ t ∈ toks, t ≠ [] ∧ ∀ c ∈ t, isWS c = false) :
    wordsAux (joinSpaceChars toks) [] = toks := by
  induction toks with
  | nil => rfl
  | cons t ts ih =>
    cases ts with
    | nil =>
      have ht := h t (by simp)
      show wordsAux t [] = [t]
      rw [wordsAux_single t [] ht.2]
      simp [ht.1]
    | cons t2 ts2 =>
      have ht := h t (by simp)
      show wordsAux (t ++ ' ' :: joinSpaceChars (t2 :: ts2)) [] = t :: t2 :: ts2
      rw [wordsAux_token t _ [] ht.2, if_neg (by simpa using ht.1)]
      simp only [List.reverse_nil, List.nil_append]
      rw [ih (fun x hx => h x (by simp [hx]))]

/-! ### Writer-line token facts -/

theorem fmtFixed_some_data (d : ℕ) (q : ℚ) :
    (fmtFixed d (some q)).data =
      (if q.num < 0 then ['-'] else []) ++
      ((natRepr ((q.num.natAbs * 10 ^ d * 2 + q.den) / (2 * q.den) / 10 ^ d)).data ++
       '.' :: (List.replicate
           (d - (natRepr ((q.num.natAbs * 10 ^ d * 2 + q.den) / (2 * q.den) % 10 ^ d)).length) '0' ++
         (natRepr ((q.num.natAbs * 10 ^ d * 2 + q.den) / (2 * q.den) % 10 ^ d)).data)) := by
  show ((if q.num < 0 then "-" else "") ++ _ ++ "." ++ _ ++ _).data = _
  by_cases hneg : q.num < 0 <;>
    simp [hneg, str_data_append, String.mk, List.append_assoc]

theorem fmtFixed_token (d : ℕ) (v : Val) :
    (fmtFixed d v).data ≠ [] ∧ ∀ c ∈ (fmtFixed d v).data, isWS c = false := by
  cases v with
  | none =>
    refine ⟨?_, ?_⟩
    · show ("nan" : String).data ≠ []
      decide
    · show ∀ c ∈ ("nan" : String).data, isWS c = false
      decide
  | some q =>
    rw [fmtFixed_some_data]
    constructor
    · by_cases hneg : q.num < 0
      · simp [hneg]
      · simp only [hneg, if_false, List.nil_append, ne_eq, List.append_eq_nil]
        intro hc
        exact natRepr_ne_nil _ hc.1
    · intro c hc
      rcases List.mem_append.mp hc with hc1 | hc2
      · by_cases hneg : q.num < 0
        · rw [if_pos hneg] at hc1
          simp only [List.mem_singleton] at hc1
          subst hc1
          rfl
        · rw [if_neg hneg] at hc1
          simp at hc1
      · rcases List.mem_append.mp hc2 with hc3 | hc4
        · exact (isDigitC_facts c (natRepr_chars _ c hc3)).1
        · rcases List.mem_cons.mp hc4 with rfl | hc5
          · rfl
          · rcases List.mem_append.mp hc5 with hc6 | hc7
            · rw [List.eq_of_mem_replicate hc6]
              rfl
            · exact (isDigitC_facts c (natRepr_chars _ c hc7)).1

theorem splitWs_strip (s : String) : splitWs (stripStr s) = wordsAux s.data [] := by
  show wordsAux (trimChars s.data) [] = wordsAux s.data []
  exact wordsAux_trimChars s.data

theorem words_trailRow (d : ℕ) (vs : List Val) :
    wordsAux (trailRow d vs).data [] = vs.map (fun v => (fmtFixed d v).data) := by
  show wordsAux ((vs.map (fun v => (fmtFixed d v).data ++ [' '])).flatten) [] = _
  rw [show (vs.map (fun v => (fmtFixed d v).data ++ [' '])) =
    ((vs.map (fun v => (fmtFixed d v).data)).map (fun t => t ++ [' '])) by
      simp [List.map_map]]
  exact words_trail _ (by
    intro t ht
    simp only [List.mem_map] at ht
    obtain ⟨v, _, rfl⟩ := ht
    exact fmtFixed_token d v)

theorem words_fmtRow (d : ℕ) (vs : List Val) :
    wordsAux (fmtRow d vs).data [] = vs.map (fun v => (fmtFixed d v).data) := by
  show wordsAux (joinSpaceChars (vs.map (fun v => (fmtFixed d v).data))) [] = _
  exact words_join _ (by
    intro t ht
    simp only [List.mem_map] at ht
    obtain ⟨v, _, rfl⟩ := ht
    exact fmtFixed_token d v)

theorem stripStr_ne_empty_of_words (s : String)
    (h : wordsAux s.data [] ≠ []) : stripStr s ≠ "" := by
  intro he
  have hdata : trimChars s.data = [] := congrArg String.data he
  rw [← wordsAux_trimChars s.data, hdata] at h
  exact h rfl

theorem mapM_parseFmt (d : ℕ) (vs : List Val) :
    ∃ ws : List Val,
      parseRow parseFloatChars (vs.map (fun v => (fmtFixed d v).data)) = some ws ∧
      ws.length = vs.length ∧
      ∀ j, (ws.getD j none).isSome ↔ (vs.getD j none).isSome := by
  induction vs with
  | nil => exact ⟨[], rfl, rfl, by intro j; simp⟩
  | cons v rest ih =>
    obtain ⟨w, hw, hsome⟩ := parseFloatChars_fmtFixed d v
    obtain ⟨ws, hws, hlen, hptw⟩ := ih
    refine ⟨w :: ws, ?_, by simp [hlen], ?_⟩
    · simp only [List.map_cons, parseRow, hw, hws]
    · intro j
      cases j with
      | zero => simpa using hsome
      | succ j2 => simpa using hptw j2

/-- Parsing a (stripped) shaper row line recovers one value per written
entry, number-ness preserved. -/
theorem parseFloatRow_strip_trailRow (d : ℕ) (vs : List Val) :
    ∃ ws : List Val,
      parseFloatRow (stripStr (trailRow d vs)) = some ws ∧
      ws.length = vs.length ∧
      ∀ j, (ws.getD j none).isSome ↔ (vs.getD j none).isSome := by
  obtain ⟨ws, hws, hlen, hptw⟩ := mapM_parseFmt d vs
  refine ⟨ws, ?_, hlen, hptw⟩
  unfold parseFloatRow
  rw [splitWs_strip, words_trailRow, hws]

/-- Parsing a (stripped) cube row line recovers one value per entry. -/
theorem parseFloatRow_strip_fmtRow (d : ℕ) (vs : List Val) :
    ∃ ws : List Val,
      parseFloatRow (stripStr (fmtRow d vs)) = some ws ∧
      ws.length = vs.length := by
  obtain ⟨ws, hws, hlen, _⟩ := mapM_parseFmt d vs
  refine ⟨ws, ?_, hlen⟩
  unfold parseFloatRow
  rw [splitWs_strip, words_fmtRow, hws]

/-! ### Tokenizer and metadata-scan lemmas -/

theorem cspLines_append (a b : List String) :
    cspLines (a ++ b) = cspLines a ++ cspLines b :=
  List.filterMap_append a b _

theorem cspLines_benign (cs : List String) (h : ∀ c ∈ cs, benign c) :
    cspLines cs = cs := by
  induction cs with
  | nil => rfl
  | cons c rest ih =>
    obtain ⟨hst, hne, _, _⟩ := h c (by simp)
    simp only [cspLines, List.filterMap_cons]
    rw [if_neg (by rw [hst]; exact hne), hst]
    exact congrArg _ (ih (fun x hx => h x (by simp [hx])))

theorem cspLines_kept (s : String) (h : stripStr s ≠ "") :
    cspLines [s] = [stripStr s] := by
  simp [cspLines, h]

theorem cspLines_blank : cspLines [""] = [] := rfl

theorem metaScanAux_gather (ms rest : List String) (i : ℕ) (acc : List String)
    (h : ∀ m ∈ ms, m ≠ "BEGIN METADATA" ∧ m ≠ "END METADATA") :
    metaScanAux (ms ++ "END METADATA" :: rest) i true acc =
      (acc ++ ms, some (i + ms.length)) := by
  induction ms generalizing i acc with
  | nil =>
    simp [metaScanAux]
  | cons m ms' ih =>
    obtain ⟨hb, he⟩ := h m (by simp)
    rw [show metaScanAux ((m :: ms') ++ "END METADATA" :: rest) i true acc =
        metaScanAux (ms' ++ "END METADATA" :: rest) (i + 1) true (acc ++ [m]) from by
      simp [metaScanAux, hb, he]]
    rw [ih (i + 1) (acc ++ [m]) (fun x hx => h x (by simp [hx]))]
    simp only [List.append_assoc, List.singleton_append, List.length_cons,
      Prod.mk.injEq]
    exact ⟨trivial, congrArg some (by omega)⟩

/-! ### Counting and reshaping lemmas -/

theorem countP_replicate_none (k : ℕ) :
    (List.replicate k (none : Val)).countP (fun v => v.isNone) = k := by
  induction k with
  | zero => rfl
  | succ k ih => simp [List.replicate_succ, List.countP_cons, ih]

theorem countP_isNone_padded (ws : List Val) (k : ℕ) (h : ∀ w ∈ ws, w.isSome) :
    ((ws ++ List.replicate k (none : Val)).countP (fun v => v.isNone)) = k := by
  rw [List.countP_append, countP_replicate_none]
  have hz : ws.countP (fun v => v.isNone) = 0 := by
    rw [List.countP_eq_zero]
    intro w hw
    have hw2 := h w hw
    cases w with
    | some q => simp
    | none => simp at hw2
  omega

theorem map_getD_range (l : List Val) :
    (List.range l.length).map (fun j => l.getD j none) = l := by
  induction l with
  | nil => rfl
  | cons x xs ih =>
    rw [List.length_cons, List.range_succ_eq_map, List.map_cons, List.map_map]
    have hcomp : ((fun j => (x :: xs).getD j none) ∘ Nat.succ) =
        (fun j => xs.getD j none) := by
      funext j
      simp
    rw [hcomp, ih]
    rfl

theorem ragged_tstack3 (a b c : List Val)
    (hb : b.length = a.length) (hc : c.length = a.length) :
    _ragged_size (tstack3 a b c) =
      [a.length - a.countP (fun v => v.isNone),
       a.length - b.countP (fun v => v.isNone),
       a.length - c.countP (fun v => v.isNone)] := by
  unfold _ragged_size tstack3
  have hlen : ((List.range a.length).map
      (fun j => [a.getD j none, b.getD j none, c.getD j none])).length = a.length := by
    simp
  have col0 : ((List.range a.length).map
      (fun j => [a.getD j none, b.getD j none, c.getD j none])).map
        (fun row => row.getD 0 none) = a := by
    simp only [List.map_map, Function.comp_def, List.getD_cons_zero]
    exact map_getD_range a
  have col1 : ((List.range a.length).map
      (fun j => [a.getD j none, b.getD j none, c.getD j none])).map
        (fun row => row.getD 1 none) = b := by
    simp only [List.map_map, Function.comp_def, List.getD_cons_succ,
      List.getD_cons_zero]
    rw [← hb]
    exact map_getD_range b
  have col2 : ((List.range a.length).map
      (fun j => [a.getD j none, b.getD j none, c.getD j none])).map
        (fun row => row.getD 2 none) = c := by
    simp only [List.map_map, Function.comp_def, List.getD_cons_succ,
      List.getD_cons_zero]
    rw [← hc]
    exact map_getD_range c
  rw [hlen, col0, col1, col2]

theorem totalElems_width3 (rows : List (List Val))
    (h : ∀ row ∈ rows, row.length = 3) :
    totalElems rows = 3 * rows.length := by
  induction rows with
  | nil => rfl
  | cons row rest ih =>
    unfold totalElems at ih ⊢
    simp only [List.map_cons, List.sum_cons, h row (by simp), List.length_cons]
    rw [ih (fun x hx => h x (by simp [hx]))]
    ring

/-! ### Cube well-formedness -/

theorem getD_mem {α : Type} (l : List α) (d : α) (i : ℕ) (h : i < l.length) :
    l.getD i d ∈ l := by
  rw [List.getD_eq_getElem l d h]
  exact List.getElem_mem h

theorem cubeRowAt_length (r g b : ℕ) (T : Cube) (h : cubeWF r g b T)
    (i j k : ℕ) (hi : i < r) (hj : j < g) (hk : k < b) :
    (cubeRowAt T i j k).length = 3 := by
  obtain ⟨hTlen, hT⟩ := h
  have hi' : i < T.length := by omega
  have hp := hT (T.getD i []) (getD_mem T [] i hi')
  have hj' : j < (T.getD i []).length := by omega
  have hq := hp.2 ((T.getD i []).getD j []) (getD_mem _ [] j hj')
  have hk' : k < ((T.getD i []).getD j []).length := by omega
  exact hq.2 _ (getD_mem _ [] k hk')

theorem cube_headD_shape (r g b : ℕ) (T : Cube) (h : cubeWF r g b T)
    (hr : 1 ≤ r) (hg : 1 ≤ g) :
    (T.headD []).length = g ∧ ((T.headD []).headD []).length = b := by
  obtain ⟨hTlen, hT⟩ := h
  have h0 : 0 < T.length := by omega
  have hhead : T.headD [] = T.getD 0 [] := by
    cases T with
    | nil => simp at h0
    | cons p rest => rfl
  have hp := hT (T.getD 0 []) (getD_mem T [] 0 h0)
  have h0g : 0 < (T.getD 0 []).length := by omega
  have hhead2 : (T.getD 0 []).headD [] = (T.getD 0 []).getD 0 [] := by
    cases hT0 : T.getD 0 [] with
    | nil => rw [hT0] at h0g; simp at h0g
    | cons q rest => rfl
  have hq := hp.2 ((T.getD 0 []).getD 0 []) (getD_mem _ [] 0 h0g)
  rw [hhead]
  exact ⟨hp.1, by rw [hhead2]; exact hq.1⟩

theorem cubeFlattenF_shape (r g b : ℕ) (T : Cube) (h : cubeWF r g b T)
    (hr : 1 ≤ r) (hg : 1 ≤ g) (hb : 1 ≤ b) :
    (cubeFlattenF T).length = r * g * b ∧
    ∀ row ∈ cubeFlattenF T, row.length = 3 := by
  obtain ⟨hg', hb'⟩ := cube_headD_shape r g b T h hr hg
  have hTlen := h.1
  constructor
  · simp only [cubeFlattenF, List.length_map, List.length_range]
    rw [hTlen, hg', hb']
  · intro row hrow
    simp only [cubeFlattenF, List.mem_map, List.mem_range] at hrow
    obtain ⟨m, hm, rfl⟩ := hrow
    rw [hTlen, hg', hb'] at hm
    rw [hTlen, hg']
    have hrg : 0 < r * g := by positivity
    exact cubeRowAt_length r g b T h _ _ _
      (Nat.mod_lt _ (by omega)) (Nat.mod_lt _ (by omega))
      (by
        rw [Nat.div_lt_iff_lt_mul hrg]
        calc m < r * g * b := hm
          _ = b * (r * g) := by ring)

/-! ### Remaining helpers for the round-trip -/

theorem strip_of_noWS (s : String) (h : ∀ c ∈ s.data, isWS c = false) :
    stripStr s = s := by
  show String.mk (trimChars s.data) = s
  rw [trimChars_of_noWS s.data h]

theorem strip_natRepr (n : ℕ) : stripStr (natRepr n) = natRepr n :=
  strip_of_noWS _ (fun c hc => (isDigitC_facts c (natRepr_chars n c hc)).1)

theorem natRepr_ne_empty (n : ℕ) : natRepr n ≠ "" := by
  intro h
  exact natRepr_ne_nil n (congrArg String.data h)

theorem cspLines_all_kept (l : List String) (h : ∀ s ∈ l, stripStr s ≠ "") :
    cspLines l = l.map stripStr := by
  induction l with
  | nil => rfl
  | cons s rest ih =>
    simp only [cspLines, List.filterMap_cons, List.map_cons]
    rw [if_neg (h s (by simp))]
    exact congrArg _ (ih (fun x hx => h x (by simp [hx])))

theorem col_getD (D : List (List Val)) (i j : ℕ) :
    (D.map (fun row => row.getD i none)).getD j none = (D.getD j []).getD i none := by
  by_cases hj : j < D.length
  · rw [List.getD_eq_getElem _ _ (by simpa using hj), List.getD_eq_getElem _ _ hj]
    simp
  · rw [List.getD_eq_default _ _ (by simpa using Nat.le_of_not_lt hj),
      List.getD_eq_default _ _ (Nat.le_of_not_lt hj)]
    rfl

theorem all_some_of_getD (ws : List Val)
    (h : ∀ j, j < ws.length → (ws.getD j none).isSome) : ∀ w ∈ ws, w.isSome := by
  intro w hw
  obtain ⟨j, hj, he⟩ := List.mem_iff_getElem.mp hw
  have := h j hj
  rw [List.getD_eq_getElem _ _ hj] at this
  rw [← he]
  exact this

theorem parseIntChars_natRepr (n : ℕ) :
    parseIntChars (natRepr n).data = some (n : ℤ) := by
  rw [parseIntChars_digits _ (natRepr_ne_nil n) (natRepr_chars n), digitsVal_natRepr]
  rfl

theorem parse_table_rows_fmt (d : ℕ) (rows : List (List Val)) :
    ∃ prs : List (List Val),
      parse_table_rows (rows.map (fun row => stripStr (fmtRow d row))) = .ok prs ∧
      prs.length = rows.length ∧
      ∀ j, (prs.getD j []).length = (rows.getD j []).length := by
  induction rows with
  | nil => exact ⟨[], rfl, rfl, by intro j; simp⟩
  | cons row rest ih =>
    obtain ⟨w, hw, hwlen⟩ := parseFloatRow_strip_fmtRow d row
    obtain ⟨prs, hprs, hlen, hptw⟩ := ih
    refine ⟨w :: prs, ?_, by simp [hlen], ?_⟩
    · simp only [List.map_cons, parse_table_rows, hw, hprs]
    · intro j
      cases j with
      | zero => simpa using hwlen
      | succ j2 => simpa using hptw j2

theorem getD_map_range {α : Type} (n j : ℕ) (f : ℕ → α) (d : α) :
    ((List.range n).map f).getD j d = if j < n then f j else d := by
  by_cases hj : j < n
  · rw [if_pos hj, List.getD_eq_getElem _ _ (by simpa using hj)]
    simp
  · rw [if_neg hj, List.getD_eq_default _ _ (by simpa using Nat.le_of_not_lt hj)]

theorem all_len_of_getD (prs : List (List Val)) (n : ℕ)
    (h : ∀ j, j < prs.length → (prs.getD j []).length = n) :
    ∀ pr ∈ prs, pr.length = n := by
  intro pr hpr
  obtain ⟨j, hj, he⟩ := List.mem_iff_getElem.mp hpr
  have := h j hj
  rw [List.getD_eq_getElem _ _ hj] at this
  rw [← he]
  exact this

theorem cspLines_cons_stripped (s : String) (rest : List String)
    (h : stripStr s ≠ "") :
    cspLines (s :: rest) = stripStr s :: cspLines rest := by
  simp only [cspLines, List.filterMap_cons]
  rw [if_neg h]

theorem cspLines_cons_kept (s : String) (rest : List String)
    (h1 : stripStr s = s) (h2 : s ≠ "") :
    cspLines (s :: rest) = s :: cspLines rest := by
  rw [cspLines_cons_stripped s rest (by rw [h1]; exact h2), h1]

theorem cspLines_cons_blank (rest : List String) :
    cspLines ("" :: rest) = cspLines rest := by
  simp only [cspLines, List.filterMap_cons]
  rw [if_pos (by decide : stripStr "" = "")]

theorem some_of_padded_col (D : List (List Val)) (i n k : ℕ) (q : List ℚ)
    (hq : q.length = n)
    (hc : D.map (fun row => row.getD i none) = q.map some ++ List.replicate k none)
    (w : List Val)
    (hwlen : w.length = ((List.range n).map (fun j => (D.getD j []).getD i none)).length)
    (hwsome : ∀ j, (w.getD j none).isSome = true ↔
      (((List.range n).map (fun j => (D.getD j []).getD i none)).getD j none).isSome = true) :
    ∀ v ∈ w, v.isSome := by
  apply all_some_of_getD
  intro j hj
  have hjn : j < n := by
    rw [hwlen] at hj
    simpa using hj
  rw [hwsome j, getD_map_range, if_pos hjn, ← col_getD, hc]
  have hjq : j < (q.map some).length := by simpa [hq] using hjn
  rw [List.getD_append _ _ _ _ hjq, List.getD_eq_getElem _ _ hjq]
  simp

/-! ### C3: the ragged-shaper round trip -/

/-- C3.  For every LUT sequence of a 16-row shaper whose three domain
channels hold 10, 12 and 16 real values (shorter channels padded with
NaN) and a well-formed `r x g x b` cube within the writer's bounds,
`write_LUT_Cinespace` succeeds without mutating the sequence, and
`read_LUT_Cinespace` of the emitted lines yields a shaper-plus-cube
sequence whose recovered shaper has the same ragged per-channel sizes
`[10, 12, 16]` as the original (`_ragged_size` is preserved through the
write/read round trip). -/

theorem C3_ragged_roundtrip
    (d : ℕ) (sh : LUT3x1D) (cube : LUT3D) (r g b : ℕ)
    (q0 q1 q2 : List ℚ)
    (hq0 : q0.length = 10) (hq1 : q1.length = 12) (hq2 : q2.length = 16)
    (hD : sh.domain.length = 16)
    (hc0 : sh.domain.map (fun row => row.getD 0 none) = q0.map some ++ List.replicate 6 none)
    (hc1 : sh.domain.map (fun row => row.getD 1 none) = q1.map some ++ List.replicate 4 none)
    (hc2 : sh.domain.map (fun row => row.getD 2 none) = q2.map some)
    (hT : sh.table.length = 16)
    (hcw : cubeWF r g b cube.table)
    (hr2 : 2 ≤ r) (hr256 : r ≤ 256) (hg1 : 1 ≤ g) (hb1 : 1 ≤ b)
    (hname : benign (sh.name ++ " - " ++ cube.name))
    (hcom : ∀ c ∈ sh.comments ++ cube.comments, benign c) :
    ∃ lines sh2 cube2,
      write_LUT_Cinespace (.sequence [.e3x1D sh, .e3D cube]) d =
        .ok (.sequence [.e3x1D sh, .e3D cube], lines) ∧
      read_LUT_Cinespace lines = .ok (.sequence [.e3x1D sh2, .e3D cube2]) ∧
      _ragged_size sh2.domain = [10, 12, 16] ∧
      _ragged_size sh.domain = [10, 12, 16] := by
  -- recovered per-channel real lengths of the input shaper
  have hmap0 : ∀ w ∈ q0.map some, Option.isSome w = true := by
    intro w hw
    obtain ⟨q, _, rfl⟩ := List.mem_map.mp hw
    rfl
  have hmap1 : ∀ w ∈ q1.map some, Option.isSome w = true := by
    intro w hw
    obtain ⟨q, _, rfl⟩ := List.mem_map.mp hw
    rfl
  have hmap2 : ∀ w ∈ q2.map some, Option.isSome w = true := by
    intro w hw
    obtain ⟨q, _, rfl⟩ := List.mem_map.mp hw
    rfl
  have hcnt2 : (q2.map some).countP (fun v => v.isNone) = 0 := by
    rw [List.countP_eq_zero]
    intro w hw
    obtain ⟨q, _, rfl⟩ := List.mem_map.mp hw
    simp
  have hrag : _ragged_size sh.domain = [10, 12, 16] := by
    unfold _ragged_size
    rw [hD, hc0, hc1, hc2,
      countP_isNone_padded (q0.map some) 6 hmap0,
      countP_isNone_padded (q1.map some) 4 hmap1, hcnt2]
  -- the shaper declares an explicit domain
  have hexp : sh.is_domain_explicit = true := by
    simp [LUT3x1D.is_domain_explicit, hD]
  -- the three channel blocks the writer emits
  have hblock : ∀ i, shaperChannelBlock sh d i =
      [natRepr ([10, 12, 16].getD i 0),
       trailRow d ((List.range ([10, 12, 16].getD i 0)).map
         (fun j => (sh.domain.getD j []).getD i none)),
       trailRow d ((List.range ([10, 12, 16].getD i 0)).map
         (fun j => (sh.table.getD j []).getD i none))] := by
    intro i
    unfold shaperChannelBlock
    simp only [hexp, if_pos rfl, if_true, hrag]
  -- the writer succeeds: both halves are within bounds
  have hwrite : write_LUT_Cinespace (.sequence [.e3x1D sh, .e3D cube]) d =
      .ok (.sequence [.e3x1D sh, .e3D cube],
        writeEmit sh cube true true (sh.name ++ " - " ++ cube.name) d) := by
    have hn : writeNormalize (.sequence [.e3x1D sh, .e3D cube]) =
        .ok ⟨sh, cube, true, true, sh.name ++ " - " ++ cube.name,
             .sequence [.e3x1D sh, .e3D cube]⟩ := rfl
    unfold write_LUT_Cinespace
    rw [hn]
    dsimp only
    rw [if_neg (by simp [LUT3x1D.size, hT]),
      if_neg (by simp only [LUT3D.size, hcw.1, not_and, not_not]; intro hcontra; omega)]
  -- the three blocks, with their sizes evaluated
  have hB0 : shaperChannelBlock sh d 0 =
      [natRepr 10, trailRow d ((List.range 10).map (fun j => (sh.domain.getD j []).getD 0 none)), trailRow d ((List.range 10).map (fun j => (sh.table.getD j []).getD 0 none))] := by
    simpa using hblock 0
  have hB1 : shaperChannelBlock sh d 1 =
      [natRepr 12, trailRow d ((List.range 12).map (fun j => (sh.domain.getD j []).getD 1 none)), trailRow d ((List.range 12).map (fun j => (sh.table.getD j []).getD 1 none))] := by
    simpa using hblock 1
  have hB2 : shaperChannelBlock sh d 2 =
      [natRepr 16, trailRow d ((List.range 16).map (fun j => (sh.domain.getD j []).getD 2 none)), trailRow d ((List.range 16).map (fun j => (sh.table.getD j []).getD 2 none))] := by
    simpa using hblock 2
  -- the emitted lines in explicit form
  have hshape := cube_headD_shape r g b cube.table hcw (by omega) hg1
  have hemit : writeEmit sh cube true true (sh.name ++ " - " ++ cube.name) d =
      "CSPLUTV100" :: "3D" :: "" :: "BEGIN METADATA" :: (sh.name ++ " - " ++ cube.name) ::
        (sh.comments ++ (cube.comments ++ ("END METADATA" :: "" ::
          (natRepr 10 :: trailRow d ((List.range 10).map (fun j => (sh.domain.getD j []).getD 0 none)) :: trailRow d ((List.range 10).map (fun j => (sh.table.getD j []).getD 0 none)) ::
           natRepr 12 :: trailRow d ((List.range 12).map (fun j => (sh.domain.getD j []).getD 1 none)) :: trailRow d ((List.range 12).map (fun j => (sh.table.getD j []).getD 1 none)) ::
           natRepr 16 :: trailRow d ((List.range 16).map (fun j => (sh.domain.getD j []).getD 2 none)) :: trailRow d ((List.range 16).map (fun j => (sh.table.getD j []).getD 2 none)) ::
           "" :: (natRepr r ++ " " ++ natRepr g ++ " " ++ natRepr b) ::
           (cubeFlattenF cube.table).map (fmtRow d))))) := by
    unfold writeEmit
    rw [show List.range 3 = [0, 1, 2] from rfl]
    simp only [if_pos rfl, List.map_cons, List.map_nil, List.flatten_cons,
      List.flatten_nil, List.append_nil, hB0, hB1, hB2, hcw.1, hshape.1, hshape.2]
    simp [List.append_assoc]
  -- non-emptiness of the stripped row lines
  have htrne : ∀ vs : List Val, vs ≠ [] → stripStr (trailRow d vs) ≠ "" := by
    intro vs hvs
    apply stripStr_ne_empty_of_words
    rw [words_trailRow]
    simpa using hvs
  have hjoin : (natRepr r ++ " " ++ natRepr g ++ " " ++ natRepr b).data =
      joinSpaceChars [(natRepr r).data, (natRepr g).data, (natRepr b).data] := by
    simp [str_data_append, joinSpaceChars, List.append_assoc]
  have hnatTok : ∀ n : ℕ, (natRepr n).data ≠ [] ∧
      ∀ c ∈ (natRepr n).data, isWS c = false := by
    intro n
    exact ⟨natRepr_ne_nil n,
      fun c hc => (isDigitC_facts c (natRepr_chars n c hc)).1⟩
  have hwordsSize : wordsAux (natRepr r ++ " " ++ natRepr g ++ " " ++ natRepr b).data [] =
      [(natRepr r).data, (natRepr g).data, (natRepr b).data] := by
    rw [hjoin]
    exact words_join _ (by
      intro t ht
      simp only [List.mem_cons, List.mem_singleton] at ht
      rcases ht with rfl | rfl | rfl | hf
      · exact hnatTok r
      · exact hnatTok g
      · exact hnatTok b
      · simp at hf)
  have hsizene : stripStr (natRepr r ++ " " ++ natRepr g ++ " " ++ natRepr b) ≠ "" := by
    apply stripStr_ne_empty_of_words
    rw [hwordsSize]
    simp
  have hrowsne : ∀ s ∈ (cubeFlattenF cube.table).map (fmtRow d), stripStr s ≠ "" := by
    intro s hs
    obtain ⟨row, hrow, rfl⟩ := List.mem_map.mp hs
    have h3 := (cubeFlattenF_shape r g b cube.table hcw (by omega) hg1 hb1).2 row hrow
    apply stripStr_ne_empty_of_words
    rw [words_fmtRow]
    intro hc
    rw [List.map_eq_nil_iff] at hc
    rw [hc] at h3
    simp at h3
  -- the tokenized line list
  have htok : cspLines (writeEmit sh cube true true (sh.name ++ " - " ++ cube.name) d) =
      "CSPLUTV100" :: "3D" :: "BEGIN METADATA" :: (sh.name ++ " - " ++ cube.name) ::
        (sh.comments ++ (cube.comments ++ ("END METADATA" ::
          natRepr 10 :: stripStr (trailRow d ((List.range 10).map (fun j => (sh.domain.getD j []).getD 0 none))) :: stripStr (trailRow d ((List.range 10).map (fun j => (sh.table.getD j []).getD 0 none))) ::
          natRepr 12 :: stripStr (trailRow d ((List.range 12).map (fun j => (sh.domain.getD j []).getD 1 none))) :: stripStr (trailRow d ((List.range 12).map (fun j => (sh.table.getD j []).getD 1 none))) ::
          natRepr 16 :: stripStr (trailRow d ((List.range 16).map (fun j => (sh.domain.getD j []).getD 2 none))) :: stripStr (trailRow d ((List.range 16).map (fun j => (sh.table.getD j []).getD 2 none))) ::
          stripStr (natRepr r ++ " " ++ natRepr g ++ " " ++ natRepr b) ::
          (cubeFlattenF cube.table).map (fun row => stripStr (fmtRow d row))))) := by
    rw [hemit]
    rw [cspLines_cons_kept _ _ (by decide) (by decide)]
    rw [cspLines_cons_kept _ _ (by decide) (by decide)]
    rw [cspLines_cons_blank]
    rw [cspLines_cons_kept _ _ (by decide) (by decide)]
    rw [cspLines_cons_kept _ _ hname.1 hname.2.1]
    rw [cspLines_append]
    rw [cspLines_benign sh.comments (fun c hc => hcom c (by simp [hc]))]
    rw [cspLines_append]
    rw [cspLines_benign cube.comments (fun c hc => hcom c (by simp [hc]))]
    rw [cspLines_cons_kept _ _ (by decide) (by decide)]
    rw [cspLines_cons_blank]
    rw [cspLines_cons_kept _ _ (strip_natRepr 10) (natRepr_ne_empty 10)]
    rw [cspLines_cons_stripped _ _ (htrne _ (by simp))]
    rw [cspLines_cons_stripped _ _ (htrne _ (by simp))]
    rw [cspLines_cons_kept _ _ (strip_natRepr 12) (natRepr_ne_empty 12)]
    rw [cspLines_cons_stripped _ _ (htrne _ (by simp))]
    rw [cspLines_cons_stripped _ _ (htrne _ (by simp))]
    rw [cspLines_cons_kept _ _ (strip_natRepr 16) (natRepr_ne_empty 16)]
    rw [cspLines_cons_stripped _ _ (htrne _ (by simp))]
    rw [cspLines_cons_stripped _ _ (htrne _ (by simp))]
    rw [cspLines_cons_blank]
    rw [cspLines_cons_stripped _ _ hsizene]
    rw [cspLines_all_kept _ hrowsne]
    simp [List.map_map]
  -- parse the six numeric rows back
  obtain ⟨dw0, hdw0, hdw0len, hdw0some⟩ := parseFloatRow_strip_trailRow d ((List.range 10).map (fun j => (sh.domain.getD j []).getD 0 none))
  obtain ⟨vw0, hvw0, hvw0len, hvw0some⟩ := parseFloatRow_strip_trailRow d ((List.range 10).map (fun j => (sh.table.getD j []).getD 0 none))
  obtain ⟨dw1, hdw1, hdw1len, hdw1some⟩ := parseFloatRow_strip_trailRow d ((List.range 12).map (fun j => (sh.domain.getD j []).getD 1 none))
  obtain ⟨vw1, hvw1, hvw1len, hvw1some⟩ := parseFloatRow_strip_trailRow d ((List.range 12).map (fun j => (sh.table.getD j []).getD 1 none))
  obtain ⟨dw2, hdw2, hdw2len, hdw2some⟩ := parseFloatRow_strip_trailRow d ((List.range 16).map (fun j => (sh.domain.getD j []).getD 2 none))
  obtain ⟨vw2, hvw2, hvw2len, hvw2some⟩ := parseFloatRow_strip_trailRow d ((List.range 16).map (fun j => (sh.table.getD j []).getD 2 none))
  have hdw0l : dw0.length = 10 := by rw [hdw0len]; simp
  have hvw0l : vw0.length = 10 := by rw [hvw0len]; simp
  have hdw1l : dw1.length = 12 := by rw [hdw1len]; simp
  have hvw1l : vw1.length = 12 := by rw [hvw1len]; simp
  have hdw2l : dw2.length = 16 := by rw [hdw2len]; simp
  have hvw2l : vw2.length = 16 := by rw [hvw2len]; simp
  -- the parsed domain block
  have hdomparse : parse_domain_section [natRepr 10, stripStr (trailRow d ((List.range 10).map (fun j => (sh.domain.getD j []).getD 0 none))), stripStr (trailRow d ((List.range 10).map (fun j => (sh.table.getD j []).getD 0 none))), natRepr 12, stripStr (trailRow d ((List.range 12).map (fun j => (sh.domain.getD j []).getD 1 none))), stripStr (trailRow d ((List.range 12).map (fun j => (sh.table.getD j []).getD 1 none))), natRepr 16, stripStr (trailRow d ((List.range 16).map (fun j => (sh.domain.getD j []).getD 2 none))), stripStr (trailRow d ((List.range 16).map (fun j => (sh.table.getD j []).getD 2 none)))] =
      .ok [dw0 ++ List.replicate 6 none, vw0 ++ List.replicate 6 none,
           dw1 ++ List.replicate 4 none, vw1 ++ List.replicate 4 none,
           dw2, vw2] := by
    have hM : max (10 : ℤ) (max 12 16) = 16 := by decide
    unfold parse_domain_section
    rw [show getIntAt [natRepr 10, stripStr (trailRow d ((List.range 10).map (fun j => (sh.domain.getD j []).getD 0 none))), stripStr (trailRow d ((List.range 10).map (fun j => (sh.table.getD j []).getD 0 none))), natRepr 12, stripStr (trailRow d ((List.range 12).map (fun j => (sh.domain.getD j []).getD 1 none))), stripStr (trailRow d ((List.range 12).map (fun j => (sh.table.getD j []).getD 1 none))), natRepr 16, stripStr (trailRow d ((List.range 16).map (fun j => (sh.domain.getD j []).getD 2 none))), stripStr (trailRow d ((List.range 16).map (fun j => (sh.table.getD j []).getD 2 none)))] 0 = .ok 10 from by
      simp [getIntAt, getLineStr, bind, Except.bind, parseIntTok_natRepr]]
    simp only [bind, Except.bind]
    rw [show getIntAt [natRepr 10, stripStr (trailRow d ((List.range 10).map (fun j => (sh.domain.getD j []).getD 0 none))), stripStr (trailRow d ((List.range 10).map (fun j => (sh.table.getD j []).getD 0 none))), natRepr 12, stripStr (trailRow d ((List.range 12).map (fun j => (sh.domain.getD j []).getD 1 none))), stripStr (trailRow d ((List.range 12).map (fun j => (sh.table.getD j []).getD 1 none))), natRepr 16, stripStr (trailRow d ((List.range 16).map (fun j => (sh.domain.getD j []).getD 2 none))), stripStr (trailRow d ((List.range 16).map (fun j => (sh.table.getD j []).getD 2 none)))] 3 = .ok 12 from by
      simp [getIntAt, getLineStr, bind, Except.bind, parseIntTok_natRepr]]
    simp only [bind, Except.bind]
    rw [show getIntAt [natRepr 10, stripStr (trailRow d ((List.range 10).map (fun j => (sh.domain.getD j []).getD 0 none))), stripStr (trailRow d ((List.range 10).map (fun j => (sh.table.getD j []).getD 0 none))), natRepr 12, stripStr (trailRow d ((List.range 12).map (fun j => (sh.domain.getD j []).getD 1 none))), stripStr (trailRow d ((List.range 12).map (fun j => (sh.table.getD j []).getD 1 none))), natRepr 16, stripStr (trailRow d ((List.range 16).map (fun j => (sh.domain.getD j []).getD 2 none))), stripStr (trailRow d ((List.range 16).map (fun j => (sh.table.getD j []).getD 2 none)))] 6 = .ok 16 from by
      simp [getIntAt, getLineStr, bind, Except.bind, parseIntTok_natRepr]]
    simp only [bind, Except.bind]
    rw [show getFloatRowAt [natRepr 10, stripStr (trailRow d ((List.range 10).map (fun j => (sh.domain.getD j []).getD 0 none))), stripStr (trailRow d ((List.range 10).map (fun j => (sh.table.getD j []).getD 0 none))), natRepr 12, stripStr (trailRow d ((List.range 12).map (fun j => (sh.domain.getD j []).getD 1 none))), stripStr (trailRow d ((List.range 12).map (fun j => (sh.table.getD j []).getD 1 none))), natRepr 16, stripStr (trailRow d ((List.range 16).map (fun j => (sh.domain.getD j []).getD 2 none))), stripStr (trailRow d ((List.range 16).map (fun j => (sh.table.getD j []).getD 2 none)))] 1 = .ok dw0 from by
      simp only [getFloatRowAt, getLineStr, List.get?, bind, Except.bind, hdw0]]
    simp only [bind, Except.bind]
    rw [show getFloatRowAt [natRepr 10, stripStr (trailRow d ((List.range 10).map (fun j => (sh.domain.getD j []).getD 0 none))), stripStr (trailRow d ((List.range 10).map (fun j => (sh.table.getD j []).getD 0 none))), natRepr 12, stripStr (trailRow d ((List.range 12).map (fun j => (sh.domain.getD j []).getD 1 none))), stripStr (trailRow d ((List.range 12).map (fun j => (sh.table.getD j []).getD 1 none))), natRepr 16, stripStr (trailRow d ((List.range 16).map (fun j => (sh.domain.getD j []).getD 2 none))), stripStr (trailRow d ((List.range 16).map (fun j => (sh.table.getD j []).getD 2 none)))] 2 = .ok vw0 from by
      simp only [getFloatRowAt, getLineStr, List.get?, bind, Except.bind, hvw0]]
    simp only [bind, Except.bind]
    rw [show getFloatRowAt [natRepr 10, stripStr (trailRow d ((List.range 10).map (fun j => (sh.domain.getD j []).getD 0 none))), stripStr (trailRow d ((List.range 10).map (fun j => (sh.table.getD j []).getD 0 none))), natRepr 12, stripStr (trailRow d ((List.range 12).map (fun j => (sh.domain.getD j []).getD 1 none))), stripStr (trailRow d ((List.range 12).map (fun j => (sh.table.getD j []).getD 1 none))), natRepr 16, stripStr (trailRow d ((List.range 16).map (fun j => (sh.domain.getD j []).getD 2 none))), stripStr (trailRow d ((List.range 16).map (fun j => (sh.table.getD j []).getD 2 none)))] 4 = .ok dw1 from by
      simp only [getFloatRowAt, getLineStr, List.get?, bind, Except.bind, hdw1]]
    simp only [bind, Except.bind]
    rw [show getFloatRowAt [natRepr 10, stripStr (trailRow d ((List.range 10).map (fun j => (sh.domain.getD j []).getD 0 none))), stripStr (trailRow d ((List.range 10).map (fun j => (sh.table.getD j []).getD 0 none))), natRepr 12, stripStr (trailRow d ((List.range 12).map (fun j => (sh.domain.getD j []).getD 1 none))), stripStr (trailRow d ((List.range 12).map (fun j => (sh.table.getD j []).getD 1 none))), natRepr 16, stripStr (trailRow d ((List.range 16).map (fun j => (sh.domain.getD j []).getD 2 none))), stripStr (trailRow d ((List.range 16).map (fun j => (sh.table.getD j []).getD 2 none)))] 5 = .ok vw1 from by
      simp only [getFloatRowAt, getLineStr, List.get?, bind, Except.bind, hvw1]]
    simp only [bind, Except.bind]
    rw [show getFloatRowAt [natRepr 10, stripStr (trailRow d ((List.range 10).map (fun j => (sh.domain.getD j []).getD 0 none))), stripStr (trailRow d ((List.range 10).map (fun j => (sh.table.getD j []).getD 0 none))), natRepr 12, stripStr (trailRow d ((List.range 12).map (fun j => (sh.domain.getD j []).getD 1 none))), stripStr (trailRow d ((List.range 12).map (fun j => (sh.table.getD j []).getD 1 none))), natRepr 16, stripStr (trailRow d ((List.range 16).map (fun j => (sh.domain.getD j []).getD 2 none))), stripStr (trailRow d ((List.range 16).map (fun j => (sh.table.getD j []).getD 2 none)))] 7 = .ok dw2 from by
      simp only [getFloatRowAt, getLineStr, List.get?, bind, Except.bind, hdw2]]
    simp only [bind, Except.bind]
    rw [show getFloatRowAt [natRepr 10, stripStr (trailRow d ((List.range 10).map (fun j => (sh.domain.getD j []).getD 0 none))), stripStr (trailRow d ((List.range 10).map (fun j => (sh.table.getD j []).getD 0 none))), natRepr 12, stripStr (trailRow d ((List.range 12).map (fun j => (sh.domain.getD j []).getD 1 none))), stripStr (trailRow d ((List.range 12).map (fun j => (sh.table.getD j []).getD 1 none))), natRepr 16, stripStr (trailRow d ((List.range 16).map (fun j => (sh.domain.getD j []).getD 2 none))), stripStr (trailRow d ((List.range 16).map (fun j => (sh.table.getD j []).getD 2 none)))] 8 = .ok vw2 from by
      simp only [getFloatRowAt, getLineStr, List.get?, bind, Except.bind, hvw2]]
    simp only [bind, Except.bind, hM]
    rw [padToWidth_le 16 dw0 (by rw [hdw0l]; norm_num)]
    simp only [bind, Except.bind]
    rw [padToWidth_le 16 vw0 (by rw [hvw0l]; norm_num)]
    simp only [bind, Except.bind]
    rw [padToWidth_le 16 dw1 (by rw [hdw1l]; norm_num)]
    simp only [bind, Except.bind]
    rw [padToWidth_le 16 vw1 (by rw [hvw1l]; norm_num)]
    simp only [bind, Except.bind]
    rw [padToWidth_le 16 dw2 (by rw [hdw2l]; norm_num)]
    simp only [bind, Except.bind]
    rw [padToWidth_le 16 vw2 (by rw [hvw2l]; norm_num)]
    simp only [bind, Except.bind]
    rw [hdw0l, hvw0l, hdw1l, hvw1l, hdw2l, hvw2l]
    norm_num
    decide
  -- parse the table section back
  obtain ⟨prs, hprs, hprslen, hprsptw⟩ := parse_table_rows_fmt d (cubeFlattenF cube.table)
  have hcfs := cubeFlattenF_shape r g b cube.table hcw (by omega) hg1 hb1
  have hallprs3 : ∀ pr ∈ prs, pr.length = 3 := by
    apply all_len_of_getD
    intro j hj
    rw [hprsptw j]
    have hjr : j < (cubeFlattenF cube.table).length := by rw [← hprslen]; exact hj
    exact hcfs.2 _ (getD_mem _ [] j hjr)
  have hszrow : parseIntRow
      (stripStr (natRepr r ++ " " ++ natRepr g ++ " " ++ natRepr b)) =
      some [(r : ℤ), (g : ℤ), (b : ℤ)] := by
    unfold parseIntRow
    rw [splitWs_strip, hwordsSize]
    simp only [parseRow, parseIntChars_natRepr]
  have hrect : prs.all (fun r2 => r2.length == (prs.headD []).length) = true := by
    rw [List.all_eq_true]
    intro x hx
    cases hp : prs with
    | nil => rw [hp] at hx; exact absurd hx (List.not_mem_nil x)
    | cons p0 rest =>
      have h0 : p0.length = 3 := hallprs3 p0 (by rw [hp]; exact List.mem_cons_self p0 rest)
      have hx3 : x.length = 3 := hallprs3 x hx
      simp [hp, h0, hx3]
  have htabparse : parse_table_section
      (stripStr (natRepr r ++ " " ++ natRepr g ++ " " ++ natRepr b) ::
        (cubeFlattenF cube.table).map (fun row => stripStr (fmtRow d row))) =
      .ok ([(r : ℤ), (g : ℤ), (b : ℤ)], prs) := by
    unfold parse_table_section
    rw [show getLineStr
        (stripStr (natRepr r ++ " " ++ natRepr g ++ " " ++ natRepr b) ::
          (cubeFlattenF cube.table).map (fun row => stripStr (fmtRow d row))) 0 =
        .ok (stripStr (natRepr r ++ " " ++ natRepr g ++ " " ++ natRepr b)) from rfl]
    simp only [bind, Except.bind]
    rw [hszrow]
    simp only [List.drop_succ_cons, List.drop_zero]
    rw [hprs]
    simp only [bind, Except.bind, hrect, if_true]
  -- header lines of the tokenized output
  have hh : (cspLines (writeEmit sh cube true true (sh.name ++ " - " ++ cube.name) d)).get? 0 = some "CSPLUTV100" := by rw [htok]; rfl
  have hk3 : (cspLines (writeEmit sh cube true true (sh.name ++ " - " ++ cube.name) d)).get? 1 = some "3D" := by rw [htok]; rfl
  -- the metadata scan collects the title and comments and breaks at END METADATA
  have hmarks : ∀ m ∈ (sh.name ++ " - " ++ cube.name) :: (sh.comments ++ cube.comments),
      m ≠ "BEGIN METADATA" ∧ m ≠ "END METADATA" := by
    intro m hm
    rcases List.mem_cons.mp hm with hm1 | hm2
    · rw [hm1]
      exact ⟨hname.2.2.1, hname.2.2.2⟩
    · exact ⟨(hcom m hm2).2.2.1, (hcom m hm2).2.2.2⟩
  have hscan : metaScanAux ((cspLines (writeEmit sh cube true true (sh.name ++ " - " ++ cube.name) d)).drop 2) 0 false [] =
      ((sh.name ++ " - " ++ cube.name) :: (sh.comments ++ cube.comments), some ((sh.comments ++ cube.comments).length + 2)) := by
    rw [htok]
    simp only [List.drop_succ_cons, List.drop_zero]
    rw [show metaScanAux ("BEGIN METADATA" :: ((sh.name ++ " - " ++ cube.name) :: (sh.comments ++ (cube.comments ++ ("END METADATA" :: (natRepr 10 :: stripStr (trailRow d ((List.range 10).map (fun j => (sh.domain.getD j []).getD 0 none))) :: stripStr (trailRow d ((List.range 10).map (fun j => (sh.table.getD j []).getD 0 none))) :: natRepr 12 :: stripStr (trailRow d ((List.range 12).map (fun j => (sh.domain.getD j []).getD 1 none))) :: stripStr (trailRow d ((List.range 12).map (fun j => (sh.table.getD j []).getD 1 none))) :: natRepr 16 :: stripStr (trailRow d ((List.range 16).map (fun j => (sh.domain.getD j []).getD 2 none))) :: stripStr (trailRow d ((List.range 16).map (fun j => (sh.table.getD j []).getD 2 none))) :: stripStr (natRepr r ++ " " ++ natRepr g ++ " " ++ natRepr b) :: (cubeFlattenF cube.table).map (fun row => stripStr (fmtRow d row)))))))) 0 false [] =
        metaScanAux ((sh.name ++ " - " ++ cube.name) :: (sh.comments ++ (cube.comments ++ ("END METADATA" :: (natRepr 10 :: stripStr (trailRow d ((List.range 10).map (fun j => (sh.domain.getD j []).getD 0 none))) :: stripStr (trailRow d ((List.range 10).map (fun j => (sh.table.getD j []).getD 0 none))) :: natRepr 12 :: stripStr (trailRow d ((List.range 12).map (fun j => (sh.domain.getD j []).getD 1 none))) :: stripStr (trailRow d ((List.range 12).map (fun j => (sh.table.getD j []).getD 1 none))) :: natRepr 16 :: stripStr (trailRow d ((List.range 16).map (fun j => (sh.domain.getD j []).getD 2 none))) :: stripStr (trailRow d ((List.range 16).map (fun j => (sh.table.getD j []).getD 2 none))) :: stripStr (natRepr r ++ " " ++ natRepr g ++ " " ++ natRepr b) :: (cubeFlattenF cube.table).map (fun row => stripStr (fmtRow d row))))))) 1 true [] from by
      simp [metaScanAux]]
    rw [show (sh.name ++ " - " ++ cube.name) :: (sh.comments ++ (cube.comments ++ ("END METADATA" :: (natRepr 10 :: stripStr (trailRow d ((List.range 10).map (fun j => (sh.domain.getD j []).getD 0 none))) :: stripStr (trailRow d ((List.range 10).map (fun j => (sh.table.getD j []).getD 0 none))) :: natRepr 12 :: stripStr (trailRow d ((List.range 12).map (fun j => (sh.domain.getD j []).getD 1 none))) :: stripStr (trailRow d ((List.range 12).map (fun j => (sh.table.getD j []).getD 1 none))) :: natRepr 16 :: stripStr (trailRow d ((List.range 16).map (fun j => (sh.domain.getD j []).getD 2 none))) :: stripStr (trailRow d ((List.range 16).map (fun j => (sh.table.getD j []).getD 2 none))) :: stripStr (natRepr r ++ " " ++ natRepr g ++ " " ++ natRepr b) :: (cubeFlattenF cube.table).map (fun row => stripStr (fmtRow d row)))))) =
        ((sh.name ++ " - " ++ cube.name) :: (sh.comments ++ cube.comments)) ++ ("END METADATA" :: (natRepr 10 :: stripStr (trailRow d ((List.range 10).map (fun j => (sh.domain.getD j []).getD 0 none))) :: stripStr (trailRow d ((List.range 10).map (fun j => (sh.table.getD j []).getD 0 none))) :: natRepr 12 :: stripStr (trailRow d ((List.range 12).map (fun j => (sh.domain.getD j []).getD 1 none))) :: stripStr (trailRow d ((List.range 12).map (fun j => (sh.table.getD j []).getD 1 none))) :: natRepr 16 :: stripStr (trailRow d ((List.range 16).map (fun j => (sh.domain.getD j []).getD 2 none))) :: stripStr (trailRow d ((List.range 16).map (fun j => (sh.table.getD j []).getD 2 none))) :: stripStr (natRepr r ++ " " ++ natRepr g ++ " " ++ natRepr b) :: (cubeFlattenF cube.table).map (fun row => stripStr (fmtRow d row)))) from by
      simp [List.append_assoc]]
    rw [metaScanAux_gather ((sh.name ++ " - " ++ cube.name) :: (sh.comments ++ cube.comments)) (natRepr 10 :: stripStr (trailRow d ((List.range 10).map (fun j => (sh.domain.getD j []).getD 0 none))) :: stripStr (trailRow d ((List.range 10).map (fun j => (sh.table.getD j []).getD 0 none))) :: natRepr 12 :: stripStr (trailRow d ((List.range 12).map (fun j => (sh.domain.getD j []).getD 1 none))) :: stripStr (trailRow d ((List.range 12).map (fun j => (sh.table.getD j []).getD 1 none))) :: natRepr 16 :: stripStr (trailRow d ((List.range 16).map (fun j => (sh.domain.getD j []).getD 2 none))) :: stripStr (trailRow d ((List.range 16).map (fun j => (sh.table.getD j []).getD 2 none))) :: stripStr (natRepr r ++ " " ++ natRepr g ++ " " ++ natRepr b) :: (cubeFlattenF cube.table).map (fun row => stripStr (fmtRow d row))) 1 [] hmarks]
    simp only [List.nil_append, List.length_cons, Prod.mk.injEq]
    exact ⟨trivial, congrArg some (by omega)⟩
  have hseek : metaSeek (cspLines (writeEmit sh cube true true (sh.name ++ " - " ++ cube.name) d)) = (sh.comments ++ cube.comments).length + 5 := by
    unfold metaSeek
    rw [hscan]
    simp only [Option.getD_some]
    omega
  have hmeta : readMeta (cspLines (writeEmit sh cube true true (sh.name ++ " - " ++ cube.name) d)) = ((sh.name ++ " - " ++ cube.name), (sh.comments ++ cube.comments)) := by
    unfold readMeta
    rw [hscan]
    rfl
  -- the lines after the metadata block
  have hpre : cspLines (writeEmit sh cube true true (sh.name ++ " - " ++ cube.name) d) =
      ((["CSPLUTV100", "3D", "BEGIN METADATA", (sh.name ++ " - " ++ cube.name)] ++ ((sh.comments ++ cube.comments) ++ ["END METADATA"])) : List String) ++ (natRepr 10 :: stripStr (trailRow d ((List.range 10).map (fun j => (sh.domain.getD j []).getD 0 none))) :: stripStr (trailRow d ((List.range 10).map (fun j => (sh.table.getD j []).getD 0 none))) :: natRepr 12 :: stripStr (trailRow d ((List.range 12).map (fun j => (sh.domain.getD j []).getD 1 none))) :: stripStr (trailRow d ((List.range 12).map (fun j => (sh.table.getD j []).getD 1 none))) :: natRepr 16 :: stripStr (trailRow d ((List.range 16).map (fun j => (sh.domain.getD j []).getD 2 none))) :: stripStr (trailRow d ((List.range 16).map (fun j => (sh.table.getD j []).getD 2 none))) :: stripStr (natRepr r ++ " " ++ natRepr g ++ " " ++ natRepr b) :: (cubeFlattenF cube.table).map (fun row => stripStr (fmtRow d row))) := by
    rw [htok]
    simp [List.append_assoc]
  have hdropT : (cspLines (writeEmit sh cube true true (sh.name ++ " - " ++ cube.name) d)).drop ((sh.comments ++ cube.comments).length + 5) = natRepr 10 :: stripStr (trailRow d ((List.range 10).map (fun j => (sh.domain.getD j []).getD 0 none))) :: stripStr (trailRow d ((List.range 10).map (fun j => (sh.table.getD j []).getD 0 none))) :: natRepr 12 :: stripStr (trailRow d ((List.range 12).map (fun j => (sh.domain.getD j []).getD 1 none))) :: stripStr (trailRow d ((List.range 12).map (fun j => (sh.table.getD j []).getD 1 none))) :: natRepr 16 :: stripStr (trailRow d ((List.range 16).map (fun j => (sh.domain.getD j []).getD 2 none))) :: stripStr (trailRow d ((List.range 16).map (fun j => (sh.table.getD j []).getD 2 none))) :: stripStr (natRepr r ++ " " ++ natRepr g ++ " " ++ natRepr b) :: (cubeFlattenF cube.table).map (fun row => stripStr (fmtRow d row)) := by
    rw [hpre]
    rw [show (sh.comments ++ cube.comments).length + 5 =
        (((["CSPLUTV100", "3D", "BEGIN METADATA", (sh.name ++ " - " ++ cube.name)] ++ ((sh.comments ++ cube.comments) ++ ["END METADATA"])) : List String)).length from by
      simp only [List.length_append, List.length_cons, List.length_nil]
      omega]
    exact List.drop_left _ _
  have hdom9 : parse_domain_section (((cspLines (writeEmit sh cube true true (sh.name ++ " - " ++ cube.name) d)).drop (metaSeek (cspLines (writeEmit sh cube true true (sh.name ++ " - " ++ cube.name) d)))).take 9) =
      .ok [dw0 ++ List.replicate 6 none, vw0 ++ List.replicate 6 none, dw1 ++ List.replicate 4 none, vw1 ++ List.replicate 4 none, dw2, vw2] := by
    rw [hseek, hdropT]
    rw [show (natRepr 10 :: stripStr (trailRow d ((List.range 10).map (fun j => (sh.domain.getD j []).getD 0 none))) :: stripStr (trailRow d ((List.range 10).map (fun j => (sh.table.getD j []).getD 0 none))) :: natRepr 12 :: stripStr (trailRow d ((List.range 12).map (fun j => (sh.domain.getD j []).getD 1 none))) :: stripStr (trailRow d ((List.range 12).map (fun j => (sh.table.getD j []).getD 1 none))) :: natRepr 16 :: stripStr (trailRow d ((List.range 16).map (fun j => (sh.domain.getD j []).getD 2 none))) :: stripStr (trailRow d ((List.range 16).map (fun j => (sh.table.getD j []).getD 2 none))) :: stripStr (natRepr r ++ " " ++ natRepr g ++ " " ++ natRepr b) :: (cubeFlattenF cube.table).map (fun row => stripStr (fmtRow d row))).take 9 = [natRepr 10, stripStr (trailRow d ((List.range 10).map (fun j => (sh.domain.getD j []).getD 0 none))), stripStr (trailRow d ((List.range 10).map (fun j => (sh.table.getD j []).getD 0 none))), natRepr 12, stripStr (trailRow d ((List.range 12).map (fun j => (sh.domain.getD j []).getD 1 none))), stripStr (trailRow d ((List.range 12).map (fun j => (sh.table.getD j []).getD 1 none))), natRepr 16, stripStr (trailRow d ((List.range 16).map (fun j => (sh.domain.getD j []).getD 2 none))), stripStr (trailRow d ((List.range 16).map (fun j => (sh.table.getD j []).getD 2 none)))] from rfl]
    exact hdomparse
  have htab9 : parse_table_section ((cspLines (writeEmit sh cube true true (sh.name ++ " - " ++ cube.name) d)).drop (metaSeek (cspLines (writeEmit sh cube true true (sh.name ++ " - " ++ cube.name) d)) + 9)) =
      .ok ([(r : ℤ), (g : ℤ), (b : ℤ)], prs) := by
    rw [hseek]
    rw [← List.drop_drop, hdropT]
    rw [show (natRepr 10 :: stripStr (trailRow d ((List.range 10).map (fun j => (sh.domain.getD j []).getD 0 none))) :: stripStr (trailRow d ((List.range 10).map (fun j => (sh.table.getD j []).getD 0 none))) :: natRepr 12 :: stripStr (trailRow d ((List.range 12).map (fun j => (sh.domain.getD j []).getD 1 none))) :: stripStr (trailRow d ((List.range 12).map (fun j => (sh.table.getD j []).getD 1 none))) :: natRepr 16 :: stripStr (trailRow d ((List.range 16).map (fun j => (sh.domain.getD j []).getD 2 none))) :: stripStr (trailRow d ((List.range 16).map (fun j => (sh.table.getD j []).getD 2 none))) :: stripStr (natRepr r ++ " " ++ natRepr g ++ " " ++ natRepr b) :: (cubeFlattenF cube.table).map (fun row => stripStr (fmtRow d row))).drop 9 = (stripStr (natRepr r ++ " " ++ natRepr g ++ " " ++ natRepr b)) :: ((cubeFlattenF cube.table).map (fun row => stripStr (fmtRow d row))) from rfl]
    exact htabparse
  have hprod : ([(r : ℤ), (g : ℤ), (b : ℤ)].prod) = ((prs.length : ℕ) : ℤ) := by
    rw [hprslen, hcfs.1]
    simp only [List.prod_cons, List.prod_nil, mul_one]
    push_cast
    ring
  -- the classification takes the ragged-shaper (third) branch
  have htot : totalElems prs = 3 * (r * g * b) := by
    rw [totalElems_width3 prs hallprs3, hprslen, hcfs.1]
  have hsh62 : shape62 ([dw0 ++ List.replicate 6 none, vw0 ++ List.replicate 6 none, dw1 ++ List.replicate 4 none, vw1 ++ List.replicate 4 none, dw2, vw2]) = false := by
    have h1 : (dw0 ++ List.replicate 6 (none : Val)).length = 16 := by
      simp [hdw0l]
    simp [shape62, h1]
  have hchk : ((r : ℤ).toNat * (g : ℤ).toNat * (b : ℤ).toNat * 3 == totalElems prs) = true := by
    rw [htot]
    simp only [Int.toNat_natCast, beq_iff_eq]
    ring
  have hclass : classify true ((sh.name ++ " - " ++ cube.name)) ((sh.comments ++ cube.comments)) ([dw0 ++ List.replicate 6 none, vw0 ++ List.replicate 6 none, dw1 ++ List.replicate 4 none, vw1 ++ List.replicate 4 none, dw2, vw2]) [(r : ℤ), (g : ℤ), (b : ℤ)] prs =
      .ok (.sequence [.e3x1D ({ table := tstack3 (vw0 ++ List.replicate 6 none) (vw1 ++ List.replicate 4 none) vw2, name := (sh.name ++ " - " ++ cube.name) ++ " - Shaper", domain := tstack3 (dw0 ++ List.replicate 6 none) (dw1 ++ List.replicate 4 none) dw2, comments := [] }), .e3D ({ table := np_reshapeF_cube r g b prs, name := (sh.name ++ " - " ++ cube.name) ++ " - Cube", domain := unity_range, comments := (sh.comments ++ cube.comments) })]) := by
    unfold classify
    rw [if_neg (by simp only [Bool.true_and, hsh62, Bool.false_and]; decide),
      if_neg (by simp only [Bool.not_true, Bool.false_and]; decide), if_pos rfl]
    simp only [List.get?_cons_zero, List.get?_cons_succ]
    rw [if_pos hchk]
    simp only [Int.toNat_natCast]
    rfl
  -- assemble the round trip
  refine ⟨writeEmit sh cube true true (sh.name ++ " - " ++ cube.name) d, { table := tstack3 (vw0 ++ List.replicate 6 none) (vw1 ++ List.replicate 4 none) vw2, name := (sh.name ++ " - " ++ cube.name) ++ " - Shaper", domain := tstack3 (dw0 ++ List.replicate 6 none) (dw1 ++ List.replicate 4 none) dw2, comments := [] }, { table := np_reshapeF_cube r g b prs, name := (sh.name ++ " - " ++ cube.name) ++ " - Cube", domain := unity_range, comments := (sh.comments ++ cube.comments) }, hwrite, ?_, ?_, hrag⟩
  · rw [read_eq_header (writeEmit sh cube true true (sh.name ++ " - " ++ cube.name) d) "3D" hh hk3 (Or.inr rfl)]
    rw [readAfterHeader_eq _ _ ([dw0 ++ List.replicate 6 none, vw0 ++ List.replicate 6 none, dw1 ++ List.replicate 4 none, vw1 ++ List.replicate 4 none, dw2, vw2]) [(r : ℤ), (g : ℤ), (b : ℤ)] prs hdom9 htab9]
    rw [if_pos hprod, hmeta]
    exact hclass
  · -- the recovered shaper has the same ragged sizes
    have hs0 : ∀ v ∈ dw0, v.isSome := some_of_padded_col sh.domain 0 10 6 q0 hq0 hc0 dw0 hdw0len hdw0some
    have hs1 : ∀ v ∈ dw1, v.isSome := some_of_padded_col sh.domain 1 12 4 q1 hq1 hc1 dw1 hdw1len hdw1some
    have hs2 : ∀ v ∈ dw2, v.isSome :=
      some_of_padded_col sh.domain 2 16 0 q2 hq2 (by simpa using hc2) dw2 hdw2len hdw2some
    have hl0 : (dw0 ++ List.replicate 6 (none : Val)).length = 16 := by simp [hdw0l]
    have hl1 : (dw1 ++ List.replicate 4 (none : Val)).length = 16 := by simp [hdw1l]
    rw [show ({ table := tstack3 (vw0 ++ List.replicate 6 none) (vw1 ++ List.replicate 4 none) vw2, name := (sh.name ++ " - " ++ cube.name) ++ " - Shaper", domain := tstack3 (dw0 ++ List.replicate 6 none) (dw1 ++ List.replicate 4 none) dw2, comments := [] } : LUT3x1D).domain =
        tstack3 (dw0 ++ List.replicate 6 none) (dw1 ++ List.replicate 4 none) dw2 from rfl]
    rw [ragged_tstack3 _ _ _ (by rw [hl1, hl0]) (by rw [hdw2l, hl0])]
    rw [hl0, countP_isNone_padded dw0 6 hs0, countP_isNone_padded dw1 4 hs1]
    rw [List.countP_eq_zero.mpr (fun v hv => by simp [Option.isNone_iff_eq_none]; intro he; rw [he] at hv; exact absurd (hs2 none hv) (by simp))]
/-- C3 witness: a concrete shaper with per-channel lengths 10, 12, 16
(padded with NaN to 16 rows) and a 2x1x1 cube survive the round trip
with ragged sizes `[10, 12, 16]` preserved. -/
theorem C3_ragged_roundtrip_witness :
    ∃ lines sh2 cube2,
      write_LUT_Cinespace (.sequence [.e3x1D wit3Shaper, .e3D wit3Cube]) 1 =
        .ok (.sequence [.e3x1D wit3Shaper, .e3D wit3Cube], lines) ∧
      read_LUT_Cinespace lines = .ok (.sequence [.e3x1D sh2, .e3D cube2]) ∧
      _ragged_size sh2.domain = [10, 12, 16] ∧
      _ragged_size wit3Shaper.domain = [10, 12, 16] :=
  C3_ragged_roundtrip 1 wit3Shaper wit3Cube 2 1 1 wit3Q0 wit3Q1 wit3Q2
    (by decide) (by decide) (by decide) (by decide)
    (by decide) (by decide) (by decide) (by decide)
    (by unfold cubeWF wit3Cube; decide)
    (by decide) (by decide) (by decide) (by decide)
    (by unfold benign wit3Shaper wit3Cube; decide)
    (fun c hc => absurd hc (List.not_mem_nil c))
